import Mathlib

/-!
Verification of the digital-downloads download-access-token system

Shallow embedding of the token signer, token store repository, issuer and
redemption gate of `apps/digital-downloads`, with theorems settling the
specification claims about them.

JavaScript strings are modelled as `List Char`; byte sequences as `List Nat`
with every element `< 256`.  ISO-8601 timestamps are modelled by their
epoch-millisecond value (`Int`), rendered in decimal where the code
manipulates them as strings; `new Date(...)` comparisons in the code compare
these millisecond values, and `new Date(undefined)` is an Invalid Date whose
comparisons are all false.
-/

namespace DigitalDownloads

/-- JavaScript `String.prototype.split` with a single-character separator:
`"".split(sep) = [""]`, separators at the ends produce empty segments. -/
def splitOnChar (sep : Char) : List Char → List (List Char)
  | [] => [[]]
  | c :: rest =>
    if c = sep then [] :: splitOnChar sep rest
    else
      match splitOnChar sep rest with
      | [] => [[c]]
      | s :: ss => (c :: s) :: ss

/-- JavaScript `Array.prototype.join` with a single-character separator. -/
def joinChar (sep : Char) : List (List Char) → List Char
  | [] => []
  | [s] => s
  | s :: rest => s ++ sep :: joinChar sep rest

/-! ## Hexadecimal encoding (Node `hmac.digest("hex")`) -/

/-- The lowercase hexadecimal digits. -/
def hexDigits : List Char := String.toList "0123456789abcdef"

/-- One byte rendered as two lowercase hex characters. -/
def byteToHex (b : Nat) : List Char :=
  [hexDigits.getD (b / 16 % 16) '0', hexDigits.getD (b % 16) '0']

/-- A byte sequence rendered as lowercase hex, as Node's `digest("hex")` does. -/
def bytesToHex (bs : List Nat) : List Char :=
  bs.flatMap byteToHex

/-! ## Base64 (Node `Buffer.toString("base64")` / `Buffer.from(s, "base64")`) -/

/-- The standard base64 alphabet. -/
def base64Alphabet : List Char :=
  String.toList "ABCDEFGHIJKLMNOPQRSTUVWXYZabcdefghijklmnopqrstuvwxyz0123456789+/"

/-- The base64 character for a 6-bit value. -/
def base64Char (v : Nat) : Char := base64Alphabet.getD v 'A'

/-- Node's `Buffer.toString("base64")`: standard alphabet with `=` padding. -/
def base64Encode : List Nat → List Char
  | [] => []
  | [b1] =>
    [base64Char (b1 / 4 % 64), base64Char (b1 % 4 * 16), '=', '=']
  | [b1, b2] =>
    [base64Char (b1 / 4 % 64), base64Char (b1 % 4 * 16 + b2 / 16 % 16),
     base64Char (b2 % 16 * 4), '=']
  | b1 :: b2 :: b3 :: rest =>
    base64Char (b1 / 4 % 64) :: base64Char (b1 % 4 * 16 + b2 / 16 % 16) ::
    base64Char (b2 % 16 * 4 + b3 / 64 % 4) :: base64Char (b3 % 64) ::
    base64Encode rest

/-- The 6-bit value of a base64 character; Node's decoder also accepts the
URL-safe alphabet (`-` for 62, `_` for 63).  `none` for every character
outside the alphabet, which the lenient decoder skips. -/
def base64Value (c : Char) : Option Nat :=
  if c = '-' then some 62
  else if c = '_' then some 63
  else
    base64Alphabet.indexOf? c

/-- Reassemble bytes from 6-bit values: complete groups of four sextets give
three bytes; a trailing group of three gives two bytes and a trailing group
of two gives one byte, discarding the dangling bits, as Node does (Node does
not reject non-zero padding bits). -/
def sextetsToBytes : List Nat → List Nat
  | s1 :: s2 :: s3 :: s4 :: rest =>
    (s1 * 4 + s2 / 16) :: (s2 % 16 * 16 + s3 / 4) :: (s3 % 4 * 64 + s4) ::
    sextetsToBytes rest
  | [s1, s2, s3] => [s1 * 4 + s2 / 16, s2 % 16 * 16 + s3 / 4]
  | [s1, s2] => [s1 * 4 + s2 / 16]
  | _ => []

/-- Node's lenient `Buffer.from(s, "base64")`: characters outside the
alphabet (including `=` padding) are skipped, then sextets are reassembled
into bytes, dangling bits discarded. -/
def base64DecodeBytes (s : List Char) : List Nat :=
  sextetsToBytes (s.filterMap base64Value)

/-! ## UTF-8 (Node `Buffer.from(string)` / `Buffer.toString("utf-8")`) -/

/-- UTF-8 encoding of one Unicode scalar value (a Lean `Char` is always a
scalar value, like the code points of well-formed JavaScript strings). -/
def utf8EncodeChar (c : Char) : List Nat :=
  if c.toNat < 0x80 then [c.toNat]
  else if c.toNat < 0x800 then
    [0xC0 + c.toNat / 64, 0x80 + c.toNat % 64]
  else if c.toNat < 0x10000 then
    [0xE0 + c.toNat / 4096, 0x80 + c.toNat / 64 % 64, 0x80 + c.toNat % 64]
  else
    [0xF0 + c.toNat / 262144, 0x80 + c.toNat / 4096 % 64,
     0x80 + c.toNat / 64 % 64, 0x80 + c.toNat % 64]

/-- `Buffer.from(string)`: UTF-8 bytes of a JavaScript string. -/
def utf8Encode (s : List Char) : List Nat :=
  s.flatMap utf8EncodeChar

/-- A code point turned back into a `Char`; invalid values (never produced by
a well-formed decode) collapse to U+FFFD like Node's replacement character. -/
def charOfCp (n : Nat) : Char :=
  if n.isValidChar then Char.ofNat n else '�'

/-- One step of UTF-8 decoding: the character decoded from lead byte `b`
followed by `rest`, and how many continuation bytes it consumed.  Malformed
input yields U+FFFD; the exact resynchronisation of Node's decoder does not
matter here because every decode in this development is of well-formed
UTF-8 bytes. -/
def utf8DecodeOne (b : Nat) (rest : List Nat) : Char × Nat :=
  if b < 0x80 then (charOfCp b, 0)
  else if 0xC2 ≤ b ∧ b ≤ 0xDF then
    if rest.length < 1 then ('\uFFFD', 0)
    else
      if 0x80 ≤ rest.getD 0 0 ∧ rest.getD 0 0 ≤ 0xBF then
        (charOfCp ((b - 0xC0) * 64 + (rest.getD 0 0 - 0x80)), 1)
      else ('\uFFFD', 1)
  else if 0xE0 ≤ b ∧ b ≤ 0xEF then
    if rest.length < 2 then ('\uFFFD', rest.length)
    else
      if (0x80 ≤ rest.getD 0 0 ∧ rest.getD 0 0 ≤ 0xBF) ∧
         (0x80 ≤ rest.getD 1 0 ∧ rest.getD 1 0 ≤ 0xBF) ∧
         (b = 0xE0 → 0xA0 ≤ rest.getD 0 0) ∧
         (b = 0xED → rest.getD 0 0 ≤ 0x9F) then
        (charOfCp ((b - 0xE0) * 4096 + (rest.getD 0 0 - 0x80) * 64 +
          (rest.getD 1 0 - 0x80)), 2)
      else ('\uFFFD', 2)
  else if 0xF0 ≤ b ∧ b ≤ 0xF4 then
    if rest.length < 3 then ('\uFFFD', rest.length)
    else
      if (0x80 ≤ rest.getD 0 0 ∧ rest.getD 0 0 ≤ 0xBF) ∧
         (0x80 ≤ rest.getD 1 0 ∧ rest.getD 1 0 ≤ 0xBF) ∧
         (0x80 ≤ rest.getD 2 0 ∧ rest.getD 2 0 ≤ 0xBF) ∧
         (b = 0xF0 → 0x90 ≤ rest.getD 0 0) ∧
         (b = 0xF4 → rest.getD 0 0 ≤ 0x8F) then
        (charOfCp ((b - 0xF0) * 262144 + (rest.getD 0 0 - 0x80) * 4096 +
          (rest.getD 1 0 - 0x80) * 64 + (rest.getD 2 0 - 0x80)), 3)
      else ('\uFFFD', 3)
  else ('\uFFFD', 0)

/-- Drive `utf8DecodeOne` over the byte list; the fuel (one unit per decoded
character) makes the recursion structural, and `bs.length` fuel always
suffices. -/
def utf8DecodeAux : Nat → List Nat → List Char
  | 0, _ => []
  | _ + 1, [] => []
  | fuel + 1, b :: rest =>
    let cd := utf8DecodeOne b rest
    cd.1 :: utf8DecodeAux fuel (rest.drop cd.2)

/-- `Buffer.toString("utf-8")`: decode UTF-8 bytes to a string, emitting
U+FFFD for malformed sequences. -/
def utf8Decode (bs : List Nat) : List Char :=
  utf8DecodeAux bs.length bs

/-! ## SHA-256 and HMAC-SHA256 (Node `crypto.createHmac("sha256", secret)`)

32-bit words are `Nat` values reduced modulo `2 ^ 32` after every operation
that can overflow. -/

/-- Truncate to a 32-bit word. -/
def w32 (n : Nat) : Nat := n % 4294967296

/-- 32-bit right rotation. -/
def rotr32 (x k : Nat) : Nat := w32 (x >>> k ||| x <<< (32 - k))

/-- 32-bit bitwise complement. -/
def not32 (x : Nat) : Nat := x ^^^ 4294967295

def sigmaBig0 (x : Nat) : Nat := rotr32 x 2 ^^^ rotr32 x 13 ^^^ rotr32 x 22
def sigmaBig1 (x : Nat) : Nat := rotr32 x 6 ^^^ rotr32 x 11 ^^^ rotr32 x 25
def sigmaSmall0 (x : Nat) : Nat := rotr32 x 7 ^^^ rotr32 x 18 ^^^ x >>> 3
def sigmaSmall1 (x : Nat) : Nat := rotr32 x 17 ^^^ rotr32 x 19 ^^^ x >>> 10
def chFn (x y z : Nat) : Nat := x &&& y ^^^ not32 x &&& z
def majFn (x y z : Nat) : Nat := x &&& y ^^^ x &&& z ^^^ y &&& z

/-- The SHA-256 round constants. -/
def sha256K : List Nat :=
  [1116352408, 1899447441, 3049323471, 3921009573, 961987163,
   1508970993, 2453635748, 2870763221, 3624381080, 310598401,
   607225278, 1426881987, 1925078388, 2162078206, 2614888103,
   3248222580, 3835390401, 4022224774, 264347078, 604807628,
   770255983, 1249150122, 1555081692, 1996064986, 2554220882,
   2821834349, 2952996808, 3210313671, 3336571891, 3584528711,
   113926993, 338241895, 666307205, 773529912, 1294757372,
   1396182291, 1695183700, 1986661051, 2177026350, 2456956037,
   2730485921, 2820302411, 3259730800, 3345764771, 3516065817,
   3600352804, 4094571909, 275423344, 430227734, 506948616,
   659060556, 883997877, 958139571, 1322822218, 1537002063,
   1747873779, 1955562222, 2024104815, 2227730452, 2361852424,
   2428436474, 2756734187, 3204031479, 3329325298]

/-- The eight working variables of the SHA-256 compression function. -/
structure Sha256State where
  a : Nat
  b : Nat
  c : Nat
  d : Nat
  e : Nat
  f : Nat
  g : Nat
  h : Nat

/-- The SHA-256 initial hash value. -/
def sha256Init : Sha256State :=
  ⟨1779033703, 3144134277, 1013904242, 2773480762,
   1359893119, 2600822924, 528734635, 1541459225⟩

/-- One word of the extended message schedule, computed from the reversed
list of the previous schedule words. -/
def scheduleWord (prev : List Nat) : Nat :=
  w32 (sigmaSmall1 (prev.getD 1 0) + prev.getD 6 0 +
       sigmaSmall0 (prev.getD 14 0) + prev.getD 15 0)

/-- Extend the schedule by `n` further words (accumulator reversed). -/
def extendSchedule : Nat → List Nat → List Nat
  | 0, acc => acc
  | n + 1, acc => extendSchedule n (scheduleWord acc :: acc)

/-- The 64-word message schedule of one 16-word block. -/
def messageSchedule (block : List Nat) : List Nat :=
  (extendSchedule 48 block.reverse).reverse

/-- One SHA-256 round. -/
def sha256Round (s : Sha256State) (kw : Nat × Nat) : Sha256State :=
  let t1 := w32 (s.h + sigmaBig1 s.e + chFn s.e s.f s.g + kw.1 + kw.2)
  let t2 := w32 (sigmaBig0 s.a + majFn s.a s.b s.c)
  ⟨w32 (t1 + t2), s.a, s.b, s.c, w32 (s.d + t1), s.e, s.f, s.g⟩

/-- Process one 16-word block. -/
def sha256Compress (h : Sha256State) (block : List Nat) : Sha256State :=
  let s := (sha256K.zip (messageSchedule block)).foldl sha256Round h
  ⟨w32 (h.a + s.a), w32 (h.b + s.b), w32 (h.c + s.c), w32 (h.d + s.d),
   w32 (h.e + s.e), w32 (h.f + s.f), w32 (h.g + s.g), w32 (h.h + s.h)⟩

/-- SHA-256 padding: `0x80`, zeros, then the 64-bit big-endian bit length. -/
def sha256Pad (msg : List Nat) : List Nat :=
  let bitLen := msg.length * 8
  let zeros := (64 - (msg.length + 9) % 64) % 64
  msg ++ 0x80 :: List.replicate zeros 0 ++
    [bitLen / 2 ^ 56 % 256, bitLen / 2 ^ 48 % 256, bitLen / 2 ^ 40 % 256,
     bitLen / 2 ^ 32 % 256, bitLen / 2 ^ 24 % 256, bitLen / 2 ^ 16 % 256,
     bitLen / 2 ^ 8 % 256, bitLen % 256]

/-- Group bytes into big-endian 32-bit words. -/
def bytesToWords : List Nat → List Nat
  | b1 :: b2 :: b3 :: b4 :: rest =>
    (b1 * 2 ^ 24 + b2 * 2 ^ 16 + b3 * 2 ^ 8 + b4) :: bytesToWords rest
  | _ => []

/-- Group a word list into 16-word blocks (a padded message always has a
multiple of 16 words; a short remainder would be dropped). -/
def wordBlocks : List Nat → List (List Nat)
  | w1 :: w2 :: w3 :: w4 :: w5 :: w6 :: w7 :: w8 ::
    w9 :: w10 :: w11 :: w12 :: w13 :: w14 :: w15 :: w16 :: rest =>
    [w1, w2, w3, w4, w5, w6, w7, w8, w9, w10, w11, w12, w13, w14, w15, w16] ::
    wordBlocks rest
  | _ => []

/-- A 32-bit word as four big-endian bytes. -/
def wordBytes (w : Nat) : List Nat :=
  [w / 2 ^ 24 % 256, w / 2 ^ 16 % 256, w / 2 ^ 8 % 256, w % 256]

/-- SHA-256 of a byte sequence. -/
def sha256 (msg : List Nat) : List Nat :=
  let final := (wordBlocks (bytesToWords (sha256Pad msg))).foldl
    sha256Compress sha256Init
  wordBytes final.a ++ wordBytes final.b ++ wordBytes final.c ++
  wordBytes final.d ++ wordBytes final.e ++ wordBytes final.f ++
  wordBytes final.g ++ wordBytes final.h

/-- HMAC-SHA256 (RFC 2104): block size 64 bytes. -/
def hmacSha256 (key msg : List Nat) : List Nat :=
  let k0 := if 64 < key.length then sha256 key else key
  let kPad := k0 ++ List.replicate (64 - k0.length) 0
  sha256 (kPad.map (fun b => b ^^^ 0x5c) ++
    sha256 (kPad.map (fun b => b ^^^ 0x36) ++ msg))

/-- `crypto.createHmac("sha256", secret).update(payload).digest("hex")`:
the HMAC-SHA256 of the UTF-8 payload under the UTF-8 secret, in lowercase
hex. -/
def hmacHex (secret payload : List Char) : List Char :=
  bytesToHex (hmacSha256 (utf8Encode secret) (utf8Encode payload))

/-! ## Signer (`generate-download-token.ts`, `verify-download-token.ts`) -/

/-- The payload of a download token
(`DownloadTokenPayload` in `generate-download-token.ts`). -/
structure DownloadTokenPayload where
  orderId : List Char
  fileUrl : List Char
  expiresAt : List Char
deriving DecidableEq, Repr

/-- The canonical payload string
`` `${data.orderId}:${data.fileUrl}:${data.expiresAt}` ``. -/
def payloadString (d : DownloadTokenPayload) : List Char :=
  d.orderId ++ ':' :: d.fileUrl ++ ':' :: d.expiresAt

/-- `generateDownloadToken` (in `generate-download-token.ts`):
`base64(payload) + "." + hex(HMAC-SHA256(secret, payload))`. -/
def generateDownloadToken (secret : List Char) (d : DownloadTokenPayload) :
    List Char :=
  base64Encode (utf8Encode (payloadString d)) ++ '.' ::
    hmacHex secret (payloadString d)

/-- `parseDownloadToken` (in `generate-download-token.ts`): take the segment
before the first `.`, base64-decode it, split the decoded payload on `:`;
the first part is `orderId`, the last is `expiresAt`, everything in between
rejoined with `:` is `fileUrl`.  `null` when fewer than 3 parts result or
any component is the empty string (JavaScript falsiness). -/
def parseDownloadToken (token : List Char) : Option DownloadTokenPayload :=
  let encodedPayload := (splitOnChar '.' token).headD []
  if encodedPayload = [] then none
  else
    let payload := utf8Decode (base64DecodeBytes encodedPayload)
    let parts := splitOnChar ':' payload
    if parts.length < 3 then none
    else
      let orderId := parts.headD []
      let fileUrl := joinChar ':' ((parts.drop 1).dropLast)
      let expiresAt := parts.getLastD []
      if orderId = [] ∨ fileUrl = [] ∨ expiresAt = [] then none
      else some ⟨orderId, fileUrl, expiresAt⟩

/-- The two error kinds of `TokenVerificationErrors`. -/
inductive TokenVerificationError where
  | invalidFormat
  | invalidSignature
deriving DecidableEq, Repr

/-- Node's `crypto.timingSafeEqual`: compares two byte buffers of equal
length; `none` models the exception it throws when the lengths differ. -/
def timingSafeEqual (a b : List Nat) : Option Bool :=
  if a.length = b.length then some (a == b) else none

/-- `verifyDownloadToken` (in `verify-download-token.ts`): split on `.` into
exactly two non-empty segments, parse the payload, recompute the HMAC over
the reconstructed payload string and compare with `timingSafeEqual`.  The
`catch` of the surrounding `try` turns the exception `timingSafeEqual`
throws on a length mismatch into `InvalidFormatError`. -/
def verifyDownloadToken (secret token : List Char) :
    Except TokenVerificationError Unit :=
  let parts := splitOnChar '.' token
  if parts.length ≠ 2 then .error .invalidFormat
  else
    let encodedPayload := parts.headD []
    let providedSignature := parts.getLastD []
    if encodedPayload = [] ∨ providedSignature = [] then .error .invalidFormat
    else
      match parseDownloadToken token with
      | none => .error .invalidFormat
      | some payload =>
        let expectedSignature := hmacHex secret (payloadString payload)
        match timingSafeEqual (utf8Encode providedSignature)
            (utf8Encode expectedSignature) with
        | none => .error .invalidFormat
        | some false => .error .invalidSignature
        | some true => .ok ()

/-! ## Data model (`download-token.ts`, `download-token-db-model.ts`)

Optional (`zod .optional()` / TypeScript `?`) fields are `Option`s; a field
that is `undefined` at runtime is `none`. -/

/-- The `DownloadToken` domain object of `downloadTokenSchema`. -/
structure DownloadToken where
  token : List Char
  orderId : List Char
  orderNumber : List Char
  customerId : Option (List Char)
  customerEmail : Option (List Char)
  fileUrl : List Char
  productName : List Char
  variantName : Option (List Char)
  expiresAt : Option Int
  maxDownloads : Option Nat
  downloadCount : Nat
  createdAt : Int
  lastAccessedAt : Option Int
  fileGroup : Option (List Char)
  fileIndex : Option Nat
  totalFiles : Option Nat
  fileName : Option (List Char)
deriving DecidableEq, Repr

/-! ### `downloadTokenSchema` validation (`download-token.ts`)

`createDownloadToken` runs `downloadTokenSchema.parse`, which throws a
`ZodError` when a checked field is invalid.  The checks that can fail are:
`fileUrl` must satisfy `z.string().url()` (the library runs
`new URL(fileUrl)` and fails when it throws), `customerEmail` (when
present) must satisfy `z.string().email()`, and `maxDownloads`,
`fileIndex` and `totalFiles` (when present) must be positive integers.
The `datetime()` checks on `expiresAt`, `createdAt` and `lastAccessedAt`
are vacuous in this embedding: those fields are modelled by their
epoch-millisecond value, so only well-formed timestamps are representable
— matching the issuer, which only ever passes
`Date.prototype.toISOString()` output (and `createdAt` is generated by
`createDownloadToken` itself).

The two string validators below are conservative, executable models of
the library checks: every string they accept is accepted by the library
(a URL whose special-scheme host is a plain letters-digits-hyphens-dots
DNS name, an email of the form `local@label.(...).tld`), while some
exotic inputs the library tolerates (IP hosts, internationalised domains,
quoted local parts, ...) are rejected.  Theorems that hypothesise
acceptance by these models therefore quantify over a subset of the inputs
the program accepts, each of which the real code accepts too. -/

/-- A scheme character after the leading letter:
`ALPHA / DIGIT / "+" / "-" / "."`, as the WHATWG scheme state accepts. -/
def schemeTailChar (c : Char) : Bool :=
  c.isAlphanum || c = '+' || c = '-' || c = '.'

/-- The WHATWG special schemes, whose URLs go through host parsing. -/
def specialSchemes : List (List Char) :=
  [String.toList "http", String.toList "https", String.toList "ws",
   String.toList "wss", String.toList "ftp", String.toList "file"]

/-- A plain DNS label: non-empty, at most 63 characters, letters, digits
and hyphens with an alphanumeric first and last character, and not a
punycode (`xn--`) label, whose decoding could fail. -/
def dnsLabelOk (lab : List Char) : Bool :=
  !lab.isEmpty && decide (lab.length ≤ 63) &&
  (lab.headD '-').isAlphanum && (lab.getLastD '-').isAlphanum &&
  lab.all (fun c => c.isAlphanum || c = '-') &&
  !(match lab.map Char.toLower with
    | 'x' :: 'n' :: '-' :: '-' :: _ => true
    | _ => false)

/-- A plain DNS host: at least two `.`-separated labels, each a valid
plain label, the last (top-level) one alphabetic of length at least 2. -/
def dnsHostOk (host : List Char) : Bool :=
  let labs := splitOnChar '.' host
  decide (2 ≤ labs.length) && labs.all dnsLabelOk &&
  (match labs.getLast? with
   | some tld => tld.all Char.isAlpha && decide (2 ≤ tld.length)
   | none => false)

/-- `z.string().url()`: the library runs `new URL(s)` and reports failure.
Conservative model of WHATWG parsing success: the string must open with a
scheme (a letter, then scheme characters, then `:`); for a special scheme the
authority (after the optional slashes, up to the next `/`, `\`, `?` or
`#`) must be a plain DNS host; a non-special scheme parses with an opaque
path unless it opens an authority (`//`), whose opaque host must then
avoid the forbidden host characters — modelled by the same plain charset,
with an empty host allowed there. -/
def urlCanParse (s : List Char) : Bool :=
  match s with
  | [] => false
  | c :: rest =>
    c.isAlpha &&
    (let schemeTail := rest.takeWhile schemeTailChar
     match rest.drop schemeTail.length with
     | ':' :: tail =>
       let scheme := (c :: schemeTail).map Char.toLower
       if specialSchemes.contains scheme then
         let afterSlashes := tail.dropWhile (fun d => d = '/' || d = '\\')
         dnsHostOk (afterSlashes.takeWhile
           (fun d => !(d = '/' || d = '\\' || d = '?' || d = '#')))
       else
         match tail with
         | '/' :: '/' :: tail2 =>
           (tail2.takeWhile (fun d => !(d = '/' || d = '?' || d = '#'))).all
             (fun d => d.isAlphanum || d = '-' || d = '.')
         | _ => true
     | _ => false)

/-- A local-part character every variant of the library's email pattern
accepts: letters, digits, `_`, `+`, `-`. -/
def emailLocalChar (c : Char) : Bool :=
  c.isAlphanum || c = '_' || c = '+' || c = '-'

/-- `z.string().email()`: conservative model of the library's email
regular expression — a non-empty dot-free local part over a plain
charset, exactly one `@`, and a plain DNS host as the domain. -/
def emailOk (s : List Char) : Bool :=
  match splitOnChar '@' s with
  | [lp, domain] => !lp.isEmpty && lp.all emailLocalChar && dnsHostOk domain
  | _ => false

/-- The checks `downloadTokenSchema.parse` applies to a candidate token
that can fail on the repository's own inputs (see the section comment). -/
def downloadTokenSchemaCheck (t : DownloadToken) : Bool :=
  urlCanParse t.fileUrl &&
  (match t.customerEmail with | some e => emailOk e | none => true) &&
  (match t.maxDownloads with | some n => decide (0 < n) | none => true) &&
  (match t.fileIndex with | some n => decide (0 < n) | none => true) &&
  (match t.totalFiles with | some n => decide (0 < n) | none => true)

/-- `createDownloadToken` (in `download-token.ts`): the caller supplies
every field except `downloadCount`, `createdAt` and `lastAccessedAt`
(those three of `base` are ignored, mirroring the `Omit<...>` input
type); the candidate with `downloadCount = 0` and `createdAt` set to the
current time is passed to `downloadTokenSchema.parse`, which returns it
unchanged on success and throws a `ZodError` (`.error ()` here) when a
checked field is invalid. -/
def createDownloadToken (base : DownloadToken) (now : Int) :
    Except Unit DownloadToken :=
  let t : DownloadToken :=
    { base with
      downloadCount := 0
      createdAt := now
      lastAccessedAt := none }
  if downloadTokenSchemaCheck t then .ok t else .error ()

/-- The persisted record shape `DownloadTokenDbModel`
(`download-token-db-model.ts`); DynamoDB stores exactly the attributes the
mapper writes, omitting `undefined` ones. -/
structure DownloadTokenDbModel where
  PK : List Char
  SK : List Char
  token : List Char
  orderId : List Char
  orderNumber : List Char
  customerId : Option (List Char)
  customerEmail : Option (List Char)
  fileUrl : List Char
  productName : List Char
  variantName : Option (List Char)
  expiresAt : Option Int
  maxDownloads : Option Nat
  downloadCount : Nat
  createdAt : Int
  lastAccessedAt : Option Int
deriving DecidableEq, Repr

/-- `DownloadTokenEntity.getPrimaryKey`: `` `TOKEN#${token}` ``. -/
def getPrimaryKey (token : List Char) : List Char :=
  'T' :: 'O' :: 'K' :: 'E' :: 'N' :: '#' :: token

/-- `DownloadTokenEntity.getSortKey`: the constant `"METADATA"`. -/
def getSortKey : List Char := ['M', 'E', 'T', 'A', 'D', 'A', 'T', 'A']

/-- `DynamoDBDownloadTokenRepo.mapDbModelToDomain`: the mapper copies the
thirteen listed fields and nothing else, so `fileGroup`, `fileIndex`,
`totalFiles` and `fileName` of the resulting domain object are `undefined`. -/
def mapDbModelToDomain (m : DownloadTokenDbModel) : DownloadToken :=
  { token := m.token
    orderId := m.orderId
    orderNumber := m.orderNumber
    customerId := m.customerId
    customerEmail := m.customerEmail
    fileUrl := m.fileUrl
    productName := m.productName
    variantName := m.variantName
    expiresAt := m.expiresAt
    maxDownloads := m.maxDownloads
    downloadCount := m.downloadCount
    createdAt := m.createdAt
    lastAccessedAt := m.lastAccessedAt
    fileGroup := none
    fileIndex := none
    totalFiles := none
    fileName := none }

/-- `DynamoDBDownloadTokenRepo.mapDomainToDbModel`: keys plus the same
thirteen fields; `fileGroup`, `fileIndex`, `totalFiles` and `fileName` are
not written. -/
def mapDomainToDbModel (t : DownloadToken) : DownloadTokenDbModel :=
  { PK := getPrimaryKey t.token
    SK := getSortKey
    token := t.token
    orderId := t.orderId
    orderNumber := t.orderNumber
    customerId := t.customerId
    customerEmail := t.customerEmail
    fileUrl := t.fileUrl
    productName := t.productName
    variantName := t.variantName
    expiresAt := t.expiresAt
    maxDownloads := t.maxDownloads
    downloadCount := t.downloadCount
    createdAt := t.createdAt
    lastAccessedAt := t.lastAccessedAt }

/-! ## Token store (`dynamodb-download-token-repo.ts`)

The DynamoDB table is an association list keyed by `(PK, SK)`; a `put`
prepends and `get` takes the first match, which is observationally the
key-replacement semantics of `PutCommand`.  Infrastructure failures of a
`send` (the exceptions the repository catches) are a boolean input of each
operation. -/

abbrev TokenTable := List ((List Char × List Char) × DownloadTokenDbModel)

/-- `GetCommand` on the modelled table. -/
def tableGet (tbl : TokenTable) (pk sk : List Char) :
    Option DownloadTokenDbModel :=
  (tbl.find? (fun e => e.1 == (pk, sk))).map (fun e => e.2)

/-- `PutCommand` on the modelled table (upsert). -/
def tablePut (tbl : TokenTable) (pk sk : List Char)
    (m : DownloadTokenDbModel) : TokenTable :=
  ((pk, sk), m) :: tbl

/-- The error kinds of `DownloadTokenRepoErrors`. -/
inductive DownloadTokenRepoError where
  | notFound
  | save
  | fetch
  | update
  | delete
deriving DecidableEq, Repr

/-- `DynamoDBDownloadTokenRepo.save`: an unconditional `PutCommand` of the
mapped db model; a thrown `send` becomes `SaveError`. -/
def repoSave (tbl : TokenTable) (t : DownloadToken) (sendFails : Bool) :
    Except DownloadTokenRepoError DownloadToken × TokenTable :=
  if sendFails then (.error .save, tbl)
  else
    (.ok t,
     tablePut tbl (getPrimaryKey t.token) getSortKey (mapDomainToDbModel t))

/-- `DynamoDBDownloadTokenRepo.getByToken`: `GetCommand` by
`(TOKEN#token, METADATA)`; a missing item is `NotFoundError`, a thrown
`send` is `FetchError`. -/
def repoGetByToken (tbl : TokenTable) (token : List Char) (sendFails : Bool) :
    Except DownloadTokenRepoError DownloadToken :=
  if sendFails then .error .fetch
  else
    match tableGet tbl (getPrimaryKey token) getSortKey with
    | none => .error .notFound
    | some m => .ok (mapDbModelToDomain m)

/-- `DynamoDBDownloadTokenRepo.incrementDownloadCount`: an `UpdateCommand`
with `SET downloadCount = downloadCount + :inc, lastAccessedAt = :timestamp`
and no `ConditionExpression` — the increment is unconditional and never
consults `maxDownloads`.  On a missing item DynamoDB rejects the arithmetic
on the absent attribute and the thrown error becomes `UpdateError`, as does
any other thrown `send`. -/
def repoIncrementDownloadCount (tbl : TokenTable) (token : List Char)
    (now : Int) (sendFails : Bool) :
    Except DownloadTokenRepoError DownloadToken × TokenTable :=
  if sendFails then (.error .update, tbl)
  else
    match tableGet tbl (getPrimaryKey token) getSortKey with
    | none => (.error .update, tbl)
    | some m =>
      let m2 := { m with downloadCount := m.downloadCount + 1,
                         lastAccessedAt := some now }
      (.ok (mapDbModelToDomain m2),
       tablePut tbl (getPrimaryKey token) getSortKey m2)

/-- `DynamoDBDownloadTokenRepo.listByOrder`: runs a `QueryCommand` against
the `OrderIndex` secondary index.  The argument is the outcome of that
query: `.error` when `send` throws (for example because the index does not
exist — the table-creation code never creates it), `.ok none` when the
response has no `Items` field, `.ok (some items)` otherwise.  A thrown
`send` becomes `FetchError`; otherwise `result.Items || []` is mapped to
domain objects. -/
def repoListByOrder
    (queryResult : Except Unit (Option (List DownloadTokenDbModel))) :
    Except DownloadTokenRepoError (List DownloadToken) :=
  match queryResult with
  | .error _ => .error .fetch
  | .ok items => .ok ((items.getD []).map mapDbModelToDomain)

/-! ## Redemption gate (`app/api/downloads/[token]/route.ts`, `GET`) -/

/-- What the route handler returns, as far as the claims are concerned:
the HTTP status, the file URL the handler proceeds to fetch and stream when
the request is authorized (status 200 here stands for the whole
serve-the-file tail of the handler; the upstream fetch is an external
collaborator), and whether `captureException` was called on a failed
increment. -/
structure GateResponse where
  status : Nat
  servedFileUrl : Option (List Char)
  incrementFailureCaptured : Bool
deriving DecidableEq, Repr

/-- The expiry check of the route:
`new Date(token.expiresAt) < new Date()`.  When `expiresAt` is absent,
`new Date(undefined)` is an Invalid Date and every comparison on it is
false, so the check never fires. -/
def gateIsExpired (t : DownloadToken) (now : Int) : Bool :=
  match t.expiresAt with
  | some e => e < now
  | none => false

/-- The limit check of the route:
`token.downloadCount >= token.maxDownloads`.  When `maxDownloads` is absent
the JavaScript comparison with `undefined` is false, so the check never
fires. -/
def gateIsLimitExceeded (t : DownloadToken) : Bool :=
  match t.maxDownloads with
  | some m => m ≤ t.downloadCount
  | none => false

/-- The `GET` handler of `app/api/downloads/[token]/route.ts`:
signature verification (401 on failure, before any store access), store
lookup (404 on any repository error), expiry check (410), limit
check (403), then the unconditional increment; an increment failure is
captured for observability and the handler continues to serve the file. -/
def gateGET (secret tokenParam : List Char) (tbl : TokenTable) (now : Int)
    (fetchSendFails incSendFails : Bool) : GateResponse × TokenTable :=
  match verifyDownloadToken secret tokenParam with
  | .error _ => (⟨401, none, false⟩, tbl)
  | .ok _ =>
    match repoGetByToken tbl tokenParam fetchSendFails with
    | .error _ => (⟨404, none, false⟩, tbl)
    | .ok token =>
      if gateIsExpired token now then (⟨410, none, false⟩, tbl)
      else if gateIsLimitExceeded token then (⟨403, none, false⟩, tbl)
      else
        match repoIncrementDownloadCount tbl tokenParam now incSendFails with
        | (.error _, tbl2) => (⟨200, some token.fileUrl, true⟩, tbl2)
        | (.ok _, tbl2) => (⟨200, some token.fileUrl, false⟩, tbl2)

/-- A sequence of redemption attempts for the same token: each entry is the
attempt's current time and whether its increment `send` fails.  Lookup
`send`s succeed. -/
def gateRun (secret tokenParam : List Char) (tbl : TokenTable)
    (attempts : List (Int × Bool)) : List GateResponse × TokenTable :=
  match attempts with
  | [] => ([], tbl)
  | (now, incFails) :: rest =>
    let (r, tbl2) := gateGET secret tokenParam tbl now false incFails
    let (rs, tbl3) := gateRun secret tokenParam tbl2 rest
    (r :: rs, tbl3)

/-- Two concurrent redemption attempts for the same token, interleaved so
that both store reads complete before either increment is sent — a schedule
the store permits because the handler's read, check and increment are three
separate operations with no conditional expression tying them together.
Both attempts see the same snapshot; the increments then run in order. -/
def gateGETTwoConcurrent (secret tokenParam : List Char) (tbl : TokenTable)
    (now : Int) : (GateResponse × GateResponse) × TokenTable :=
  match verifyDownloadToken secret tokenParam with
  | .error _ => ((⟨401, none, false⟩, ⟨401, none, false⟩), tbl)
  | .ok _ =>
    match repoGetByToken tbl tokenParam false,
          repoGetByToken tbl tokenParam false with
    | .error _, _ => ((⟨404, none, false⟩, ⟨404, none, false⟩), tbl)
    | _, .error _ => ((⟨404, none, false⟩, ⟨404, none, false⟩), tbl)
    | .ok token1, .ok token2 =>
      let decide1 : GateResponse × Bool :=
        if gateIsExpired token1 now then (⟨410, none, false⟩, false)
        else if gateIsLimitExceeded token1 then (⟨403, none, false⟩, false)
        else (⟨200, some token1.fileUrl, false⟩, true)
      let decide2 : GateResponse × Bool :=
        if gateIsExpired token2 now then (⟨410, none, false⟩, false)
        else if gateIsLimitExceeded token2 then (⟨403, none, false⟩, false)
        else (⟨200, some token2.fileUrl, false⟩, true)
      let tbl1 := if decide1.2 then
        (repoIncrementDownloadCount tbl tokenParam now false).2 else tbl
      let tbl2 := if decide2.2 then
        (repoIncrementDownloadCount tbl1 tokenParam now false).2 else tbl1
      ((decide1.1, decide2.1), tbl2)

/-! ## Issuer (`order-fully-paid/use-case.ts`, token-creation loop) -/

/-- JavaScript `a || b` on an optional string: the empty string is falsy. -/
def jsOrStr (a b : Option (List Char)) : Option (List Char) :=
  match a with
  | some s => if s = [] then b else some s
  | none => b

/-- One entry of `fileMetadataList` (resolved by `getFileUrls`). -/
structure FileMetadata where
  url : List Char
  name : List Char
deriving DecidableEq, Repr

/-- The order fields the token-creation loop reads. -/
structure OrderInfo where
  id : List Char
  number : List Char
  userId : Option (List Char)
  userEmail : Option (List Char)
  userEmailFallback : Option (List Char)
deriving DecidableEq, Repr

/-- The line-item fields the token-creation loop reads. -/
structure LineInfo where
  productId : Option (List Char)
  productName : List Char
  variantName : Option (List Char)
deriving DecidableEq, Repr

/-- `` const fileGroup = `${line.variant?.product?.id || line.productName}-files` ``:
the product id when present and non-empty (JavaScript falsiness), else the
product name, suffixed with `-files`, so every file of one line item shares
the group. -/
def fileGroupOf (line : LineInfo) : List Char :=
  (match line.productId with
   | some p => if p = [] then line.productName else p
   | none => line.productName) ++ ['-', 'f', 'i', 'l', 'e', 's']

/-- A decimal digit character. -/
def digitChar (n : Nat) : Char := hexDigits.getD n '0'

/-- Decimal digits of a natural number (most significant first); the fuel
argument makes the recursion structural and `n + 1` fuel always suffices. -/
def natDigitsAux : Nat → Nat → List Char
  | 0, _ => []
  | fuel + 1, n =>
    if n < 10 then [digitChar n]
    else natDigitsAux fuel (n / 10) ++ [digitChar (n % 10)]

/-- Decimal rendering of a natural number. -/
def natDigits (n : Nat) : List Char := natDigitsAux (n + 1) n

/-- `expiryDate.toISOString()`: an ISO-8601 timestamp, modelled as the
decimal rendering of its epoch-millisecond value (injective, monotone in
the timestamp, exactly like the ISO string for a fixed format; like an ISO
timestamp it is non-empty and contains no `:` — the code's actual ISO
strings do contain colons, which the parser's middle-rejoin tolerates, but
the delimiter analysis below is about `orderId` and the sentinel). -/
def isoString (ms : Int) : List Char :=
  if ms < 0 then '-' :: natDigits ms.natAbs else natDigits ms.natAbs

/-- The third component of the signed payload:
`expiryDate ? expiryDate.toISOString() : "never"`. -/
def expiresAtString (expiry : Option Int) : List Char :=
  match expiry with
  | some e => isoString e
  | none => ['n', 'e', 'v', 'e', 'r']

/-- The record the loop body passes to `createDownloadToken` for file
number `idx` (0-based, as the `for` loop counts) of a line item:
`generateDownloadToken` over `(order.id, file.url, expiry or "never")`,
plus `fileGroup`, `fileIndex = idx + 1`, `totalFiles` and `fileName`. -/
def issuerTokenData (secret : List Char) (order : OrderInfo) (line : LineInfo)
    (expiry : Option Int) (maxDl : Option Nat) (totalFiles : Nat) (now : Int)
    (idx : Nat) (fm : FileMetadata) : DownloadToken :=
  { token := generateDownloadToken secret
      ⟨order.id, fm.url, expiresAtString expiry⟩
    orderId := order.id
    orderNumber := order.number
    customerId := order.userId
    customerEmail := jsOrStr order.userEmail order.userEmailFallback
    fileUrl := fm.url
    productName := line.productName
    variantName := jsOrStr line.variantName none
    expiresAt := expiry
    maxDownloads := maxDl
    downloadCount := 0
    createdAt := now
    lastAccessedAt := none
    fileGroup := some (fileGroupOf line)
    fileIndex := some (idx + 1)
    totalFiles := some totalFiles
    fileName := some fm.name }

/-- The loop body's `createDownloadToken` call: the token record under
`downloadTokenSchema.parse`, which throws a `ZodError` (`.error ()`) when
a checked field is invalid. -/
def issuerMkToken (secret : List Char) (order : OrderInfo) (line : LineInfo)
    (expiry : Option Int) (maxDl : Option Nat) (totalFiles : Nat) (now : Int)
    (idx : Nat) (fm : FileMetadata) : Except Unit DownloadToken :=
  createDownloadToken
    (issuerTokenData secret order line expiry maxDl totalFiles now idx fm) now

/-- The `for (let fileIndex = 0; ...)` loop over `fileMetadataList`: build
each token, `save` it, push it to `tokens` on success and continue past a
failed save (`saveFails idx` tells whether the save of file `idx` throws).
A `ZodError` thrown by `createDownloadToken` is caught nowhere inside the
loop: it aborts the loop and escapes to the use case's outer `catch`
(`.error ()` in the result), with the saves already performed left in the
table and no further token created or saved. -/
def issuerLoop (secret : List Char) (order : OrderInfo) (line : LineInfo)
    (expiry : Option Int) (maxDl : Option Nat) (totalFiles : Nat) (now : Int)
    (saveFails : Nat → Bool) :
    Nat → List FileMetadata → TokenTable →
      Except Unit (List DownloadToken) × TokenTable
  | _, [], tbl => (.ok [], tbl)
  | idx, fm :: rest, tbl =>
    match issuerMkToken secret order line expiry maxDl totalFiles now idx fm with
    | .error e => (.error e, tbl)
    | .ok t =>
      match repoSave tbl t (saveFails idx) with
      | (.ok _, tbl2) =>
        match issuerLoop secret order line expiry maxDl totalFiles now
            saveFails (idx + 1) rest tbl2 with
        | (.ok ts, tbl3) => (.ok (t :: ts), tbl3)
        | (.error e2, tbl3) => (.error e2, tbl3)
      | (.error _, tbl2) =>
        issuerLoop secret order line expiry maxDl totalFiles now saveFails
          (idx + 1) rest tbl2

/-- Token creation for one digital line item
(`use-case.ts`, the body from `const totalFiles = ...` through the save
loop): `totalFiles` is the number of resolved files and every token of the
item shares `fileGroupOf line`; `.error` is a `ZodError` escaping the
loop. -/
def issueLineTokens (secret : List Char) (order : OrderInfo) (line : LineInfo)
    (files : List FileMetadata) (expiry : Option Int) (maxDl : Option Nat)
    (now : Int) (saveFails : Nat → Bool) (tbl : TokenTable) :
    Except Unit (List DownloadToken) × TokenTable :=
  issuerLoop secret order line expiry maxDl files.length now saveFails 0
    files tbl

/-- A valid signing triple: the three components are non-empty, and
`orderId` and `expiresAt` (both structured values: a Saleor order id and an
ISO timestamp or the sentinel `"never"`) contain no `:` delimiter; only
`fileUrl` may contain colons. -/
def validTriple (d : DownloadTokenPayload) : Prop :=
  d.orderId ≠ [] ∧ d.fileUrl ≠ [] ∧ d.expiresAt ≠ [] ∧
  ':' ∉ d.orderId ∧ ':' ∉ d.expiresAt

instance (d : DownloadTokenPayload) : Decidable (validTriple d) := by
  unfold validTriple
  infer_instance

/-! ## Claim C2: limit enforcement -/

/-- The single token under scrutiny has `maxDownloads = m` and its stored
`downloadCount` does not exceed `m`. -/
def tableLimitOk (tokenParam : List Char) (m : Nat) (tbl : TokenTable) : Prop :=
  ∀ rec, tableGet tbl (getPrimaryKey tokenParam) getSortKey = some rec →
    rec.maxDownloads = some m ∧ rec.downloadCount ≤ m

/-- The single token under scrutiny carries no `maxDownloads`. -/
def tableNoLimit (tokenParam : List Char) (tbl : TokenTable) : Prop :=
  ∀ rec, tableGet tbl (getPrimaryKey tokenParam) getSortKey = some rec →
    rec.maxDownloads = none

/-! ## Shared concrete instances for witnesses and counterexamples -/

/-- The concrete signing secret of the worked examples. -/
def cSecret : List Char := ['s', 'e', 'c', 'r', 'e', 't']

/-- A concrete signing triple whose `fileUrl` contains colons. -/
def cPayload : DownloadTokenPayload :=
  ⟨['O', 'R', 'D', '-', '1'],
   ['h', 't', 't', 'p', 's', ':', '/', '/', 'x', '/', 'f', '.', 'p', 'd', 'f'],
   ['n', 'e', 'v', 'e', 'r']⟩

/-- The signed token string of the worked examples. -/
def cTokenStr : List Char := generateDownloadToken cSecret cPayload

/-- A stored record for `cTokenStr` with `maxDownloads = 1`,
`downloadCount = 0` and no expiry. -/
def cRec : DownloadTokenDbModel :=
  { PK := getPrimaryKey cTokenStr
    SK := getSortKey
    token := cTokenStr
    orderId := cPayload.orderId
    orderNumber := ['1']
    customerId := none
    customerEmail := none
    fileUrl := cPayload.fileUrl
    productName := ['P']
    variantName := none
    expiresAt := none
    maxDownloads := some 1
    downloadCount := 0
    createdAt := 0
    lastAccessedAt := none }

/-- A table holding exactly `cRec`. -/
def cTbl : TokenTable :=
  tablePut [] (getPrimaryKey cTokenStr) getSortKey cRec

/-- A short concrete triple: its canonical payload `a:b:c` encodes to the
base64 `YTpiOmM=`, whose final group carries two unused trailing bits. -/
def cPayloadB : DownloadTokenPayload := ⟨['a'], ['b'], ['c']⟩

/-! ## Witnesses for C5, C6, C7 -/

/-- A stored record for `cTokenStr` that expires at epoch-millisecond
1000 and carries no download limit. -/
def cRecExp : DownloadTokenDbModel :=
  { cRec with expiresAt := some 1000, maxDownloads := none }

/-- A table holding exactly `cRecExp`. -/
def cTblExp : TokenTable :=
  tablePut [] (getPrimaryKey cTokenStr) getSortKey cRecExp

/-- A concrete order for the issuer examples. -/
def cOrder : OrderInfo := ⟨['O', '1'], ['1'], none, none, none⟩

/-- A concrete digital line item. -/
def cLine : LineInfo := ⟨some ['p', '1'], ['P'], none⟩

/-- The two resolved files of the line item; the URLs are ordinary
`https` URLs, which `downloadTokenSchema.parse` accepts. -/
def cFile1 : FileMetadata :=
  ⟨String.toList "https://cdn.ex/f1.pdf", String.toList "f1.pdf"⟩

/-- The second resolved file. -/
def cFile2 : FileMetadata :=
  ⟨String.toList "https://cdn.ex/f2.pdf", String.toList "f2.pdf"⟩

/-! ## Claim C1 -/

/-- The stored record for `cTokenStr` already at its download limit:
`maxDownloads = 1` and `downloadCount = 1`. -/
def cRecAtLimit : DownloadTokenDbModel := { cRec with downloadCount := 1 }

/-- A table holding exactly `cRecAtLimit`. -/
def cTblAtLimit : TokenTable :=
  tablePut [] (getPrimaryKey cTokenStr) getSortKey cRecAtLimit

/-! ## Theorems -/

theorem splitOnChar_ne_nil (sep : Char) (s : List Char) : splitOnChar sep s ≠ [] := by
  cases s with
  | nil => simp [splitOnChar]
  | cons c rest =>
    simp only [splitOnChar]
    split
    · simp
    · split <;> simp

theorem splitOnChar_of_not_mem {sep : Char} {s : List Char} (h : sep ∉ s) :
    splitOnChar sep s = [s] := by
  induction s with
  | nil => rfl
  | cons c rest ih =>
    simp only [List.mem_cons, not_or] at h
    have hc : ¬c = sep := fun hc => h.1 hc.symm
    simp [splitOnChar, hc, ih h.2]

theorem splitOnChar_append_cons {sep : Char} {xs : List Char}
    (h : sep ∉ xs) (ys : List Char) :
    splitOnChar sep (xs ++ sep :: ys) = xs :: splitOnChar sep ys := by
  induction xs with
  | nil => simp [splitOnChar]
  | cons c rest ih =>
    simp only [List.mem_cons, not_or] at h
    have hc : ¬c = sep := fun hc => h.1 hc.symm
    simp [splitOnChar, hc, ih h.2]

theorem splitOnChar_append_last {sep : Char} (xs : List Char) {ys : List Char}
    (h : sep ∉ ys) :
    splitOnChar sep (xs ++ sep :: ys) = splitOnChar sep xs ++ [ys] := by
  induction xs with
  | nil => simp [splitOnChar, splitOnChar_of_not_mem h]
  | cons c rest ih =>
    by_cases hc : c = sep
    · subst hc
      simp [splitOnChar, ih]
    · rcases hsp : splitOnChar sep rest with _ | ⟨s, ss⟩
      · exact absurd hsp (splitOnChar_ne_nil sep rest)
      · simp [splitOnChar, hc, ih, hsp]

theorem joinChar_splitOnChar (sep : Char) (s : List Char) :
    joinChar sep (splitOnChar sep s) = s := by
  induction s with
  | nil => rfl
  | cons c rest ih =>
    by_cases hc : c = sep
    · subst hc
      rcases hsp : splitOnChar c rest with _ | ⟨s, ss⟩
      · exact absurd hsp (splitOnChar_ne_nil c rest)
      · rw [hsp] at ih
        simp only [splitOnChar, if_pos rfl, hsp]
        simpa [joinChar] using ih
    · rcases hsp : splitOnChar sep rest with _ | ⟨s, ss⟩
      · exact absurd hsp (splitOnChar_ne_nil sep rest)
      · rw [hsp] at ih
        simp only [splitOnChar, hc, if_neg hc, hsp]
        cases ss with
        | nil => simpa [joinChar] using ih
        | cons t ts => simpa [joinChar] using ih

/-! ## Lemmas about the encodings -/

theorem base64Char_mem (v : Nat) : base64Char v ∈ base64Alphabet := by
  unfold base64Char List.getD
  cases hv : base64Alphabet.get? v with
  | none => decide
  | some c => exact List.get?_mem hv

theorem base64Value_base64Char :
    ∀ v, v < 64 → base64Value (base64Char v) = some v := by
  decide

theorem base64Value_pad : base64Value '=' = none := by decide

theorem base64Encode_mem {c : Char} :
    ∀ {bs : List Nat}, c ∈ base64Encode bs → c ∈ base64Alphabet ∨ c = '=' := by
  intro bs
  induction bs using base64Encode.induct with
  | case1 => simp [base64Encode]
  | case2 b1 =>
    simp only [base64Encode, List.mem_cons, List.mem_singleton]
    rintro (rfl | rfl | rfl | rfl | h)
    · exact .inl (base64Char_mem _)
    · exact .inl (base64Char_mem _)
    · exact .inr rfl
    · exact .inr rfl
    · simp at h
  | case3 b1 b2 =>
    simp only [base64Encode, List.mem_cons, List.mem_singleton]
    rintro (rfl | rfl | rfl | rfl | h)
    · exact .inl (base64Char_mem _)
    · exact .inl (base64Char_mem _)
    · exact .inl (base64Char_mem _)
    · exact .inr rfl
    · simp at h
  | case4 b1 b2 b3 rest ih =>
    simp only [base64Encode, List.mem_cons]
    rintro (rfl | rfl | rfl | rfl | h)
    · exact .inl (base64Char_mem _)
    · exact .inl (base64Char_mem _)
    · exact .inl (base64Char_mem _)
    · exact .inl (base64Char_mem _)
    · exact ih h

theorem base64_roundtrip :
    ∀ (bs : List Nat), (∀ b ∈ bs, b < 256) →
      base64DecodeBytes (base64Encode bs) = bs := by
  intro bs
  induction bs using base64Encode.induct with
  | case1 => intro _; rfl
  | case2 b1 =>
    intro h
    have hb1 := h b1 (by simp)
    have e1 := base64Value_base64Char (b1 / 4 % 64) (by omega)
    have e2 := base64Value_base64Char (b1 % 4 * 16) (by omega)
    simp only [base64DecodeBytes, base64Encode, List.filterMap_cons, e1, e2,
      base64Value_pad, List.filterMap_nil, sextetsToBytes, List.cons.injEq,
      and_true]
    omega
  | case3 b1 b2 =>
    intro h
    have hb1 := h b1 (by simp)
    have hb2 := h b2 (by simp)
    have e1 := base64Value_base64Char (b1 / 4 % 64) (by omega)
    have e2 := base64Value_base64Char (b1 % 4 * 16 + b2 / 16 % 16) (by omega)
    have e3 := base64Value_base64Char (b2 % 16 * 4) (by omega)
    simp only [base64DecodeBytes, base64Encode, List.filterMap_cons, e1, e2,
      e3, base64Value_pad, List.filterMap_nil, sextetsToBytes,
      List.cons.injEq, and_true]
    omega
  | case4 b1 b2 b3 rest ih =>
    intro h
    have hb1 := h b1 (by simp)
    have hb2 := h b2 (by simp)
    have hb3 := h b3 (by simp)
    have hih := ih (fun b hb => h b (by simp [hb]))
    have e1 := base64Value_base64Char (b1 / 4 % 64) (by omega)
    have e2 := base64Value_base64Char (b1 % 4 * 16 + b2 / 16 % 16) (by omega)
    have e3 := base64Value_base64Char (b2 % 16 * 4 + b3 / 64 % 4) (by omega)
    have e4 := base64Value_base64Char (b3 % 64) (by omega)
    simp only [base64DecodeBytes] at hih
    simp only [base64DecodeBytes, base64Encode, List.filterMap_cons, e1, e2,
      e3, e4, sextetsToBytes, List.cons.injEq]
    exact ⟨by omega, by omega, by omega, hih⟩

theorem charOfCp_toNat (c : Char) : charOfCp c.toNat = c := by
  have hv : c.toNat.isValidChar := c.valid
  unfold charOfCp
  rw [if_pos hv]
  exact Char.ofNat_toNat c

theorem char_toNat_valid (c : Char) :
    c.toNat < 0xd800 ∨ (0xe000 ≤ c.toNat ∧ c.toNat < 1114112) := c.valid

theorem utf8EncodeChar_lt {c : Char} : ∀ b ∈ utf8EncodeChar c, b < 256 := by
  have h := char_toNat_valid c
  intro b hb
  unfold utf8EncodeChar at hb
  split at hb
  · simp only [List.mem_singleton] at hb
    omega
  · split at hb
    · simp only [List.mem_cons, List.not_mem_nil, or_false] at hb
      rcases hb with rfl | rfl <;> omega
    · split at hb
      · simp only [List.mem_cons, List.not_mem_nil, or_false] at hb
        rcases hb with rfl | rfl | rfl <;> omega
      · simp only [List.mem_cons, List.not_mem_nil, or_false] at hb
        rcases hb with rfl | rfl | rfl | rfl <;> omega

theorem utf8Encode_lt {s : List Char} : ∀ b ∈ utf8Encode s, b < 256 := by
  intro b hb
  simp only [utf8Encode, List.mem_flatMap] at hb
  obtain ⟨c, _, hc⟩ := hb
  exact utf8EncodeChar_lt b hc

theorem utf8EncodeChar_length_pos (c : Char) :
    1 ≤ (utf8EncodeChar c).length := by
  unfold utf8EncodeChar
  split
  · simp
  · split
    · simp
    · split <;> simp

theorem utf8DecodeAux_encodeChar (c : Char) (fuel : Nat) (bs : List Nat) :
    utf8DecodeAux (fuel + 1) (utf8EncodeChar c ++ bs) =
      c :: utf8DecodeAux fuel bs := by
  have hval := char_toNat_valid c
  have hcp := charOfCp_toNat c
  by_cases h1 : c.toNat < 0x80
  · rw [utf8EncodeChar, if_pos h1]
    simp only [List.cons_append, List.nil_append, utf8DecodeAux]
    rw [utf8DecodeOne, if_pos h1]
    simp [hcp]
  · by_cases h2 : c.toNat < 0x800
    · rw [utf8EncodeChar, if_neg h1, if_pos h2]
      simp only [List.cons_append, List.nil_append, utf8DecodeAux]
      rw [utf8DecodeOne, if_neg (by omega),
        if_pos (by omega :
          0xC2 ≤ 0xC0 + c.toNat / 64 ∧ 0xC0 + c.toNat / 64 ≤ 0xDF)]
      simp only [List.append_eq, List.cons_append, List.nil_append,
        List.length_cons, List.getD_cons_zero, List.getD_cons_succ,
        List.drop_succ_cons, List.drop_zero]
      rw [if_neg (by omega), if_pos (by constructor <;> omega)]
      have he : (0xC0 + c.toNat / 64 - 0xC0) * 64 +
          (0x80 + c.toNat % 64 - 0x80) = c.toNat := by omega
      simp [he, hcp]
      rw [show c.toNat / 64 * 64 + c.toNat % 64 = c.toNat from by omega, hcp]
    · by_cases h3 : c.toNat < 0x10000
      · rw [utf8EncodeChar, if_neg h1, if_neg h2, if_pos h3]
        simp only [List.cons_append, List.nil_append, utf8DecodeAux]
        rw [utf8DecodeOne, if_neg (by omega), if_neg (by omega),
          if_pos (by omega :
            0xE0 ≤ 0xE0 + c.toNat / 4096 ∧ 0xE0 + c.toNat / 4096 ≤ 0xEF)]
        simp only [List.append_eq, List.cons_append, List.nil_append,
          List.length_cons, List.getD_cons_zero, List.getD_cons_succ,
          List.drop_succ_cons, List.drop_zero]
        rw [if_neg (by omega), if_pos (by
          refine ⟨⟨by omega, by omega⟩, ⟨by omega, by omega⟩, ?_, ?_⟩ <;>
            intro hx <;> omega)]
        have he : (0xE0 + c.toNat / 4096 - 0xE0) * 4096 +
            (0x80 + c.toNat / 64 % 64 - 0x80) * 64 +
            (0x80 + c.toNat % 64 - 0x80) = c.toNat := by omega
        simp [he, hcp]
        rw [show c.toNat / 4096 * 4096 + c.toNat / 64 % 64 * 64 +
          c.toNat % 64 = c.toNat from by omega, hcp]
      · rw [utf8EncodeChar, if_neg h1, if_neg h2, if_neg h3]
        simp only [List.cons_append, List.nil_append, utf8DecodeAux]
        rw [utf8DecodeOne, if_neg (by omega), if_neg (by omega),
          if_neg (by omega),
          if_pos (by omega :
            0xF0 ≤ 0xF0 + c.toNat / 262144 ∧
              0xF0 + c.toNat / 262144 ≤ 0xF4)]
        simp only [List.append_eq, List.cons_append, List.nil_append,
          List.length_cons, List.getD_cons_zero, List.getD_cons_succ,
          List.drop_succ_cons, List.drop_zero]
        rw [if_neg (by omega), if_pos (by
          refine ⟨⟨by omega, by omega⟩, ⟨by omega, by omega⟩,
            ⟨by omega, by omega⟩, ?_, ?_⟩ <;> intro hx <;> omega)]
        have he : (0xF0 + c.toNat / 262144 - 0xF0) * 262144 +
            (0x80 + c.toNat / 4096 % 64 - 0x80) * 4096 +
            (0x80 + c.toNat / 64 % 64 - 0x80) * 64 +
            (0x80 + c.toNat % 64 - 0x80) = c.toNat := by omega
        simp [he, hcp]
        rw [show c.toNat / 262144 * 262144 + c.toNat / 4096 % 64 * 4096 +
          c.toNat / 64 % 64 * 64 + c.toNat % 64 = c.toNat from by omega, hcp]

theorem utf8DecodeAux_fuel :
    ∀ (fuel fuel2 : Nat) (bs : List Nat), bs.length ≤ fuel →
      bs.length ≤ fuel2 → utf8DecodeAux fuel bs = utf8DecodeAux fuel2 bs := by
  intro fuel
  induction fuel with
  | zero =>
    intro fuel2 bs h1 _
    have : bs = [] := by
      cases bs with
      | nil => rfl
      | cons b r => simp at h1
    subst this
    cases fuel2 <;> rfl
  | succ f ih =>
    intro fuel2 bs h1 h2
    cases bs with
    | nil => cases fuel2 <;> rfl
    | cons b rest =>
      cases fuel2 with
      | zero => simp at h2
      | succ f2 =>
        simp only [utf8DecodeAux]
        have hd : (rest.drop (utf8DecodeOne b rest).2).length ≤ rest.length :=
          by simp [List.length_drop]
        simp only [List.length_cons] at h1 h2
        rw [ih f2 _ (by omega) (by omega)]

theorem utf8_roundtrip (s : List Char) : utf8Decode (utf8Encode s) = s := by
  induction s with
  | nil => rfl
  | cons c rest ih =>
    have henc : utf8Encode (c :: rest) = utf8EncodeChar c ++ utf8Encode rest := by
      simp [utf8Encode]
    have hlen : 1 ≤ (utf8EncodeChar c).length := utf8EncodeChar_length_pos c
    unfold utf8Decode
    rw [henc]
    have hfuel : (utf8EncodeChar c ++ utf8Encode rest).length =
        ((utf8EncodeChar c ++ utf8Encode rest).length - 1) + 1 := by
      simp only [List.length_append]
      omega
    rw [hfuel, utf8DecodeAux_encodeChar]
    unfold utf8Decode at ih
    rw [utf8DecodeAux_fuel _ (utf8Encode rest).length _
      (by simp [List.length_append]; omega) (le_refl _), ih]

theorem byteToHex_mem {c : Char} {b : Nat} (h : c ∈ byteToHex b) :
    c ∈ hexDigits := by
  have gmem : ∀ i : Nat, hexDigits.getD i '0' ∈ hexDigits := by
    intro i
    unfold List.getD
    cases hv : hexDigits.get? i with
    | none => decide
    | some d => exact List.get?_mem hv
  simp only [byteToHex, List.mem_cons, List.not_mem_nil, or_false] at h
  rcases h with rfl | rfl <;> exact gmem _

theorem bytesToHex_mem {c : Char} {bs : List Nat} (h : c ∈ bytesToHex bs) :
    c ∈ hexDigits := by
  simp only [bytesToHex, List.mem_flatMap] at h
  obtain ⟨b, _, hb⟩ := h
  exact byteToHex_mem hb

theorem hexDigits_ascii : ∀ c ∈ hexDigits, c.toNat < 128 := by decide

theorem dot_not_mem_hexDigits : '.' ∉ hexDigits := by decide

theorem bytesToHex_length (bs : List Nat) :
    (bytesToHex bs).length = 2 * bs.length := by
  induction bs with
  | nil => rfl
  | cons b rest ih =>
    simp only [bytesToHex, byteToHex, List.flatMap_cons] at ih ⊢
    simp [ih]
    omega

theorem sha256_length (msg : List Nat) : (sha256 msg).length = 32 := by
  simp [sha256, wordBytes]

theorem sha256_ne_nil (msg : List Nat) : sha256 msg ≠ [] := by
  intro h
  have := sha256_length msg
  rw [h] at this
  simp at this

theorem hmacHex_length (secret payload : List Char) :
    (hmacHex secret payload).length = 64 := by
  unfold hmacHex hmacSha256
  rw [bytesToHex_length, sha256_length]

theorem hmacHex_mem_hexDigits {secret payload : List Char} {c : Char}
    (h : c ∈ hmacHex secret payload) : c ∈ hexDigits :=
  bytesToHex_mem h

theorem hmacHex_ne_nil (secret payload : List Char) :
    hmacHex secret payload ≠ [] := by
  intro h
  have := hmacHex_length secret payload
  rw [h] at this
  simp at this

theorem dot_not_mem_hmacHex (secret payload : List Char) :
    '.' ∉ hmacHex secret payload := by
  intro h
  exact dot_not_mem_hexDigits (hmacHex_mem_hexDigits h)

theorem dot_not_mem_base64Encode (bs : List Nat) :
    '.' ∉ base64Encode bs := by
  intro h
  rcases base64Encode_mem h with hmem | heq
  · revert hmem
    decide
  · exact absurd heq (by decide)

theorem base64Encode_ne_nil {bs : List Nat} (h : bs ≠ []) :
    base64Encode bs ≠ [] := by
  match bs with
  | [] => exact absurd rfl h
  | [b1] => simp [base64Encode]
  | [b1, b2] => simp [base64Encode]
  | b1 :: b2 :: b3 :: rest => simp [base64Encode]

theorem utf8Encode_ascii {s : List Char} (h : ∀ c ∈ s, c.toNat < 128) :
    utf8Encode s = s.map Char.toNat := by
  induction s with
  | nil => rfl
  | cons c rest ih =>
    have hc := h c (by simp)
    simp only [utf8Encode, List.flatMap_cons, List.map_cons] at ih ⊢
    rw [utf8EncodeChar, if_pos hc]
    simp only [List.singleton_append, List.cons.injEq, true_and]
    exact ih (fun x hx => h x (by simp [hx]))

theorem char_toNat_injective {a b : Char} (h : a.toNat = b.toNat) : a = b := by
  have := Char.ofNat_toNat a
  rw [h, Char.ofNat_toNat b] at this
  exact this.symm

theorem utf8Encode_ne_nil {s : List Char} (h : s ≠ []) : utf8Encode s ≠ [] := by
  match s with
  | [] => exact absurd rfl h
  | c :: rest =>
    simp only [utf8Encode, List.flatMap_cons]
    intro heq
    have h1 := utf8EncodeChar_length_pos c
    have := congrArg List.length heq
    simp only [List.length_append, List.length_nil] at this
    omega

theorem payloadString_ne_nil (d : DownloadTokenPayload) :
    payloadString d ≠ [] := by
  cases h : d.orderId <;> simp [payloadString, h]

theorem payloadString_parts (d : DownloadTokenPayload) (h : validTriple d) :
    splitOnChar ':' (payloadString d) =
      d.orderId :: (splitOnChar ':' d.fileUrl ++ [d.expiresAt]) := by
  obtain ⟨-, -, -, h4, h5⟩ := h
  have hassoc : payloadString d =
      (d.orderId ++ ':' :: d.fileUrl) ++ ':' :: d.expiresAt := by
    simp [payloadString]
  rw [hassoc, splitOnChar_append_last _ h5, splitOnChar_append_cons h4]
  rfl

theorem parse_generateDownloadToken (secret : List Char)
    (d : DownloadTokenPayload) (h : validTriple d) :
    parseDownloadToken (generateDownloadToken secret d) = some d := by
  obtain ⟨h1, h2, h3, h4, h5⟩ := h
  have henc : base64Encode (utf8Encode (payloadString d)) ≠ [] :=
    base64Encode_ne_nil (utf8Encode_ne_nil (payloadString_ne_nil d))
  have hsplit : splitOnChar '.' (generateDownloadToken secret d) =
      [base64Encode (utf8Encode (payloadString d)),
       hmacHex secret (payloadString d)] := by
    unfold generateDownloadToken
    rw [splitOnChar_append_cons (dot_not_mem_base64Encode _),
      splitOnChar_of_not_mem (dot_not_mem_hmacHex _ _)]
  have hdecode : utf8Decode (base64DecodeBytes
      (base64Encode (utf8Encode (payloadString d)))) = payloadString d := by
    rw [base64_roundtrip _ (fun b hb => utf8Encode_lt b hb), utf8_roundtrip]
  have hparts := payloadString_parts d ⟨h1, h2, h3, h4, h5⟩
  have hfne := splitOnChar_ne_nil ':' d.fileUrl
  have hflen : 0 < (splitOnChar ':' d.fileUrl).length :=
    List.length_pos.mpr hfne
  unfold parseDownloadToken
  rw [hsplit]
  simp only [List.headD_cons]
  rw [if_neg (by simpa using henc), hdecode, hparts]
  rw [if_neg (by
    simp only [List.length_cons, List.length_append, List.length_singleton,
      not_lt]
    omega)]
  simp only [List.headD_cons, List.drop_one, List.tail_cons]
  rw [List.dropLast_concat, List.getLastD_cons, List.getLastD_concat,
    joinChar_splitOnChar]
  rw [if_neg (by simp [h1, h2, h3])]

theorem verify_generateDownloadToken (secret : List Char)
    (d : DownloadTokenPayload) (h : validTriple d) :
    verifyDownloadToken secret (generateDownloadToken secret d) =
      .ok () := by
  have henc : base64Encode (utf8Encode (payloadString d)) ≠ [] :=
    base64Encode_ne_nil (utf8Encode_ne_nil (payloadString_ne_nil d))
  have hsig : hmacHex secret (payloadString d) ≠ [] := hmacHex_ne_nil _ _
  have hsplit : splitOnChar '.' (generateDownloadToken secret d) =
      [base64Encode (utf8Encode (payloadString d)),
       hmacHex secret (payloadString d)] := by
    unfold generateDownloadToken
    rw [splitOnChar_append_cons (dot_not_mem_base64Encode _),
      splitOnChar_of_not_mem (dot_not_mem_hmacHex _ _)]
  have hlast : ([base64Encode (utf8Encode (payloadString d)),
      hmacHex secret (payloadString d)] : List (List Char)).getLastD [] =
      hmacHex secret (payloadString d) := rfl
  unfold verifyDownloadToken
  rw [hsplit]
  simp only [List.length_cons, List.length_nil, List.headD_cons, hlast]
  rw [if_neg (by omega)]
  rw [if_neg (by simp [henc, hsig])]
  rw [parse_generateDownloadToken secret d h]
  simp [timingSafeEqual]

/-! ## Store lemmas -/

theorem tableGet_put_self (tbl : TokenTable) (pk sk : List Char)
    (m : DownloadTokenDbModel) :
    tableGet (tablePut tbl pk sk m) pk sk = some m := by
  simp [tableGet, tablePut, List.find?_cons]

theorem tableGet_put_ne (tbl : TokenTable) {pk sk pk2 sk2 : List Char}
    (m : DownloadTokenDbModel) (h : (pk2, sk2) ≠ (pk, sk)) :
    tableGet (tablePut tbl pk2 sk2 m) pk sk = tableGet tbl pk sk := by
  have hb : ((pk2, sk2) == (pk, sk)) = false := by
    simp only [beq_eq_false_iff_ne, ne_eq]
    exact h
  simp [tableGet, tablePut, List.find?_cons, hb]

theorem getPrimaryKey_injective {t1 t2 : List Char}
    (h : getPrimaryKey t1 = getPrimaryKey t2) : t1 = t2 := by
  simpa [getPrimaryKey] using h

theorem mapDbModelToDomain_mapDomainToDbModel (t : DownloadToken) :
    mapDbModelToDomain (mapDomainToDbModel t) =
      { t with fileGroup := none, fileIndex := none,
               totalFiles := none, fileName := none } := rfl

/-! ## Claim C10 -/

/-- C10: for every `DownloadToken`, the store round-trip `Save` followed by
`GetByToken` yields the token with `fileGroup`, `fileIndex`, `totalFiles`
and `fileName` absent — the persistence mapping omits those four fields in
both directions — while every other field is preserved exactly. -/
theorem C10_save_get_drops_file_grouping (tbl : TokenTable)
    (t : DownloadToken) :
    repoGetByToken (repoSave tbl t false).2 t.token false =
      .ok { t with fileGroup := none, fileIndex := none,
                   totalFiles := none, fileName := none } := by
  simp only [repoSave, if_neg Bool.false_ne_true, repoGetByToken]
  rw [tableGet_put_self]
  rfl

/-! ## Claim C8 -/

/-- C8 counterexample: when the `OrderIndex` query throws (for example
because the secondary index does not exist), `listByOrder` returns a
`FetchError`, not the empty list the claim asserts. -/
theorem C8_counterexample :
    repoListByOrder (.error ()) = .error .fetch ∧
      repoListByOrder (.error ()) ≠ .ok [] := by
  constructor
  · rfl
  · intro h
    simp [repoListByOrder] at h

/-- C8 amended: `listByOrder` returns an empty list when the order has no
tokens (a successful query with no `Items` or an empty `Items`), but when
the query itself fails — for example because the `OrderIndex` secondary
index is unavailable — it returns a `FetchError` to the caller rather than
an empty list. -/
theorem C8_empty_only_on_success :
    repoListByOrder (.ok none) = .ok [] ∧
    repoListByOrder (.ok (some [])) = .ok [] ∧
    repoListByOrder (.error ()) = .error .fetch := by
  refine ⟨rfl, rfl, rfl⟩

/-! ## Gate unfolding lemmas -/

theorem gateGET_unverified {secret tokenParam : List Char}
    {e : TokenVerificationError} (tbl : TokenTable) (now : Int)
    (fetchF incF : Bool)
    (hver : verifyDownloadToken secret tokenParam = .error e) :
    gateGET secret tokenParam tbl now fetchF incF = (⟨401, none, false⟩, tbl) := by
  unfold gateGET
  rw [hver]

theorem gateGET_lookup_error {secret tokenParam : List Char}
    {tbl : TokenTable} {now : Int} {fetchF : Bool} (incF : Bool)
    (hver : verifyDownloadToken secret tokenParam = .ok ())
    {e : DownloadTokenRepoError}
    (hget : repoGetByToken tbl tokenParam fetchF = .error e) :
    gateGET secret tokenParam tbl now fetchF incF = (⟨404, none, false⟩, tbl) := by
  unfold gateGET
  rw [hver, hget]

theorem repoGetByToken_of_tableGet {tbl : TokenTable} {tokenParam : List Char}
    {rec : DownloadTokenDbModel}
    (hget : tableGet tbl (getPrimaryKey tokenParam) getSortKey = some rec) :
    repoGetByToken tbl tokenParam false = .ok (mapDbModelToDomain rec) := by
  unfold repoGetByToken
  rw [if_neg Bool.false_ne_true, hget]

theorem gateGET_expired {secret tokenParam : List Char}
    {tbl : TokenTable} {now : Int} (incF : Bool)
    {rec : DownloadTokenDbModel}
    (hver : verifyDownloadToken secret tokenParam = .ok ())
    (hget : tableGet tbl (getPrimaryKey tokenParam) getSortKey = some rec)
    (hexp : gateIsExpired (mapDbModelToDomain rec) now = true) :
    gateGET secret tokenParam tbl now false incF = (⟨410, none, false⟩, tbl) := by
  unfold gateGET
  rw [hver, repoGetByToken_of_tableGet hget]
  simp only [hexp, if_true]

theorem gateGET_limit_exceeded {secret tokenParam : List Char}
    {tbl : TokenTable} {now : Int} (incF : Bool)
    {rec : DownloadTokenDbModel}
    (hver : verifyDownloadToken secret tokenParam = .ok ())
    (hget : tableGet tbl (getPrimaryKey tokenParam) getSortKey = some rec)
    (hexp : gateIsExpired (mapDbModelToDomain rec) now = false)
    (hlim : gateIsLimitExceeded (mapDbModelToDomain rec) = true) :
    gateGET secret tokenParam tbl now false incF = (⟨403, none, false⟩, tbl) := by
  unfold gateGET
  rw [hver, repoGetByToken_of_tableGet hget]
  simp only [hexp, hlim, if_true, if_false, Bool.false_eq_true]

theorem repoIncrement_of_tableGet {tbl : TokenTable} {tokenParam : List Char}
    {rec : DownloadTokenDbModel} (now : Int)
    (hget : tableGet tbl (getPrimaryKey tokenParam) getSortKey = some rec) :
    repoIncrementDownloadCount tbl tokenParam now false =
      (.ok (mapDbModelToDomain
        { rec with downloadCount := rec.downloadCount + 1,
                   lastAccessedAt := some now }),
       tablePut tbl (getPrimaryKey tokenParam) getSortKey
        { rec with downloadCount := rec.downloadCount + 1,
                   lastAccessedAt := some now }) := by
  unfold repoIncrementDownloadCount
  rw [if_neg Bool.false_ne_true, hget]

theorem gateGET_authorized {secret tokenParam : List Char}
    {tbl : TokenTable} {now : Int}
    {rec : DownloadTokenDbModel}
    (hver : verifyDownloadToken secret tokenParam = .ok ())
    (hget : tableGet tbl (getPrimaryKey tokenParam) getSortKey = some rec)
    (hexp : gateIsExpired (mapDbModelToDomain rec) now = false)
    (hlim : gateIsLimitExceeded (mapDbModelToDomain rec) = false) :
    gateGET secret tokenParam tbl now false false =
      (⟨200, some rec.fileUrl, false⟩,
       tablePut tbl (getPrimaryKey tokenParam) getSortKey
        { rec with downloadCount := rec.downloadCount + 1,
                   lastAccessedAt := some now }) := by
  unfold gateGET
  rw [hver, repoGetByToken_of_tableGet hget]
  simp only [hexp, hlim, if_false, Bool.false_eq_true,
    repoIncrement_of_tableGet now hget]
  rfl

theorem gateGET_authorized_increment_fails {secret tokenParam : List Char}
    {tbl : TokenTable} {now : Int}
    {rec : DownloadTokenDbModel}
    (hver : verifyDownloadToken secret tokenParam = .ok ())
    (hget : tableGet tbl (getPrimaryKey tokenParam) getSortKey = some rec)
    (hexp : gateIsExpired (mapDbModelToDomain rec) now = false)
    (hlim : gateIsLimitExceeded (mapDbModelToDomain rec) = false) :
    gateGET secret tokenParam tbl now false true =
      (⟨200, some rec.fileUrl, true⟩, tbl) := by
  unfold gateGET
  rw [hver, repoGetByToken_of_tableGet hget]
  simp only [hexp, hlim, if_false, Bool.false_eq_true]
  unfold repoIncrementDownloadCount
  rw [if_pos rfl]
  rfl

theorem mapDbModelToDomain_expiresAt (rec : DownloadTokenDbModel) :
    (mapDbModelToDomain rec).expiresAt = rec.expiresAt := rfl

theorem mapDbModelToDomain_maxDownloads (rec : DownloadTokenDbModel) :
    (mapDbModelToDomain rec).maxDownloads = rec.maxDownloads := rfl

theorem mapDbModelToDomain_downloadCount (rec : DownloadTokenDbModel) :
    (mapDbModelToDomain rec).downloadCount = rec.downloadCount := rfl

theorem gateGET_not_expired_status {secret tokenParam : List Char}
    {tbl : TokenTable} {now : Int} (incF : Bool)
    {rec : DownloadTokenDbModel}
    (hver : verifyDownloadToken secret tokenParam = .ok ())
    (hget : tableGet tbl (getPrimaryKey tokenParam) getSortKey = some rec)
    (hexp : gateIsExpired (mapDbModelToDomain rec) now = false) :
    (gateGET secret tokenParam tbl now false incF).1.status = 403 ∨
    (gateGET secret tokenParam tbl now false incF).1.status = 200 := by
  by_cases hlim : gateIsLimitExceeded (mapDbModelToDomain rec) = true
  · left
    rw [gateGET_limit_exceeded incF hver hget hexp hlim]
  · right
    have hlim2 : gateIsLimitExceeded (mapDbModelToDomain rec) = false :=
      Bool.not_eq_true _ ▸ eq_false_of_ne_true hlim
    cases incF
    · rw [gateGET_authorized hver hget hexp hlim2]
    · rw [gateGET_authorized_increment_fails hver hget hexp hlim2]

/-! ## Claim C5 -/

/-- C5: expiry at the gate is decided by the stored token's `expiresAt`
against the current time with no grace period: a token whose `expiresAt`
lies in the past is rejected with 410 (`Expired`), one whose `expiresAt`
lies in the future passes the expiry check, and a token with no `expiresAt`
is never rejected for expiry, whatever the current time (in the code
`new Date(undefined)` is an Invalid Date and its comparison is always
false). -/
theorem C5_expiry_boundary (secret tokenParam : List Char) (tbl : TokenTable)
    (now : Int) (incF : Bool) (rec : DownloadTokenDbModel)
    (hver : verifyDownloadToken secret tokenParam = .ok ())
    (hget : tableGet tbl (getPrimaryKey tokenParam) getSortKey = some rec) :
    (∀ e : Int, rec.expiresAt = some e → e < now →
      (gateGET secret tokenParam tbl now false incF).1.status = 410) ∧
    (∀ e : Int, rec.expiresAt = some e → now < e →
      (gateGET secret tokenParam tbl now false incF).1.status ≠ 410) ∧
    (rec.expiresAt = none →
      (gateGET secret tokenParam tbl now false incF).1.status ≠ 410) := by
  refine ⟨?_, ?_, ?_⟩
  · intro e he hlt
    have hexp : gateIsExpired (mapDbModelToDomain rec) now = true := by
      unfold gateIsExpired
      rw [mapDbModelToDomain_expiresAt, he]
      simpa using hlt
    rw [gateGET_expired incF hver hget hexp]
  · intro e he hgt
    have hexp : gateIsExpired (mapDbModelToDomain rec) now = false := by
      unfold gateIsExpired
      rw [mapDbModelToDomain_expiresAt, he]
      simpa using by omega
    rcases gateGET_not_expired_status incF hver hget hexp with h | h <;>
      rw [h] <;> omega
  · intro he
    have hexp : gateIsExpired (mapDbModelToDomain rec) now = false := by
      unfold gateIsExpired
      rw [mapDbModelToDomain_expiresAt, he]
    rcases gateGET_not_expired_status incF hver hget hexp with h | h <;>
      rw [h] <;> omega

/-! ## Claim C6 -/

/-- C6: when the signature, lookup, expiry and limit checks have all
passed and the atomic increment then fails at the store, the gate still
authorizes the file access (it proceeds to fetch and serve `fileUrl`,
status 200) and captures the failure for observability
(`captureException`), leaving the stored record untouched. -/
theorem C6_increment_failure_still_authorizes
    (secret tokenParam : List Char) (tbl : TokenTable) (now : Int)
    (rec : DownloadTokenDbModel)
    (hver : verifyDownloadToken secret tokenParam = .ok ())
    (hget : tableGet tbl (getPrimaryKey tokenParam) getSortKey = some rec)
    (hexp : gateIsExpired (mapDbModelToDomain rec) now = false)
    (hlim : gateIsLimitExceeded (mapDbModelToDomain rec) = false) :
    gateGET secret tokenParam tbl now false true =
      (⟨200, some rec.fileUrl, true⟩, tbl) :=
  gateGET_authorized_increment_fails hver hget hexp hlim

/-! ## Claim C7 -/

/-- C7 amended: for a well-formed, authentic token the endpoint returns 404
exactly when the store lookup fails, whether the token is absent
(`NotFoundError`) or the lookup infrastructure fails (`FetchError`) — an
infrastructure fetch failure is *not* surfaced as a 500; the handler's 500
is reserved for exceptions escaping the whole route body, which the mapped
repository errors never are. -/
theorem C7_lookup_failure_maps_to_404 (secret tokenParam : List Char)
    (tbl : TokenTable) (now : Int) (fetchF incF : Bool)
    (hver : verifyDownloadToken secret tokenParam = .ok ()) :
    ((gateGET secret tokenParam tbl now fetchF incF).1.status = 404 ↔
      (repoGetByToken tbl tokenParam fetchF).isOk = false) ∧
    (gateGET secret tokenParam tbl now fetchF incF).1.status ≠ 500 := by
  cases hres : repoGetByToken tbl tokenParam fetchF with
  | error e =>
    rw [gateGET_lookup_error incF hver hres]
    simp [Except.isOk, Except.toBool]
  | ok token =>
    have hfetch : fetchF = false := by
      by_contra hf
      have : fetchF = true := by
        cases fetchF
        · exact absurd rfl hf
        · rfl
      rw [this] at hres
      unfold repoGetByToken at hres
      simp at hres
    subst hfetch
    obtain ⟨rec, hget, hmap⟩ :
        ∃ rec, tableGet tbl (getPrimaryKey tokenParam) getSortKey = some rec ∧
          token = mapDbModelToDomain rec := by
      unfold repoGetByToken at hres
      rw [if_neg Bool.false_ne_true] at hres
      cases htg : tableGet tbl (getPrimaryKey tokenParam) getSortKey with
      | none => rw [htg] at hres; simp at hres
      | some rec =>
        rw [htg] at hres
        simp only [Except.ok.injEq] at hres
        exact ⟨rec, rfl, hres.symm⟩
    subst hmap
    by_cases hexp : gateIsExpired (mapDbModelToDomain rec) now = true
    · rw [gateGET_expired incF hver hget hexp]
      simp [Except.isOk, Except.toBool]
    · have hexp2 : gateIsExpired (mapDbModelToDomain rec) now = false :=
        eq_false_of_ne_true hexp
      rcases gateGET_not_expired_status incF hver hget hexp2 with h | h <;>
        rw [h] <;> simp [Except.isOk, Except.toBool]

theorem gateIsLimitExceeded_of_rec (rec : DownloadTokenDbModel) {m : Nat}
    (hmax : rec.maxDownloads = some m) :
    gateIsLimitExceeded (mapDbModelToDomain rec) = decide (m ≤ rec.downloadCount) := by
  unfold gateIsLimitExceeded
  rw [mapDbModelToDomain_maxDownloads, hmax]
  rfl

theorem gateGET_preserves_limitOk (secret tokenParam : List Char)
    (tbl : TokenTable) (now : Int) (incF : Bool) (m : Nat)
    (hinv : tableLimitOk tokenParam m tbl) :
    tableLimitOk tokenParam m (gateGET secret tokenParam tbl now false incF).2 := by
  cases hver : verifyDownloadToken secret tokenParam with
  | error e => rw [gateGET_unverified tbl now false incF hver]; exact hinv
  | ok u =>
    cases u
    cases hget : tableGet tbl (getPrimaryKey tokenParam) getSortKey with
    | none =>
      have hres : repoGetByToken tbl tokenParam false = .error .notFound := by
        unfold repoGetByToken
        rw [if_neg Bool.false_ne_true, hget]
      rw [gateGET_lookup_error incF hver hres]
      exact hinv
    | some rec =>
      obtain ⟨hmax, hcnt⟩ := hinv rec hget
      by_cases hexp : gateIsExpired (mapDbModelToDomain rec) now = true
      · rw [gateGET_expired incF hver hget hexp]
        exact hinv
      · have hexp2 := eq_false_of_ne_true hexp
        by_cases hlim : gateIsLimitExceeded (mapDbModelToDomain rec) = true
        · rw [gateGET_limit_exceeded incF hver hget hexp2 hlim]
          exact hinv
        · have hlim2 := eq_false_of_ne_true hlim
          have hlt : rec.downloadCount < m := by
            rw [gateIsLimitExceeded_of_rec rec hmax] at hlim2
            simpa using hlim2
          cases incF
          · rw [gateGET_authorized hver hget hexp2 hlim2]
            intro rec2 hget2
            rw [tableGet_put_self] at hget2
            cases hget2
            exact ⟨hmax, by simpa using hlt⟩
          · rw [gateGET_authorized_increment_fails hver hget hexp2 hlim2]
            exact hinv

theorem gateRun_preserves_limitOk (secret tokenParam : List Char)
    (tbl : TokenTable) (attempts : List (Int × Bool)) (m : Nat)
    (hinv : tableLimitOk tokenParam m tbl) :
    tableLimitOk tokenParam m (gateRun secret tokenParam tbl attempts).2 := by
  induction attempts generalizing tbl with
  | nil => exact hinv
  | cons a rest ih =>
    obtain ⟨now, incF⟩ := a
    simp only [gateRun]
    exact ih _ (gateGET_preserves_limitOk secret tokenParam tbl now incF m hinv)

theorem gateGET_no_403_of_noLimit (secret tokenParam : List Char)
    (tbl : TokenTable) (now : Int) (incF : Bool)
    (hinv : tableNoLimit tokenParam tbl) :
    (gateGET secret tokenParam tbl now false incF).1.status ≠ 403 := by
  cases hver : verifyDownloadToken secret tokenParam with
  | error e => rw [gateGET_unverified tbl now false incF hver]; simp
  | ok u =>
    cases u
    cases hget : tableGet tbl (getPrimaryKey tokenParam) getSortKey with
    | none =>
      have hres : repoGetByToken tbl tokenParam false = .error .notFound := by
        unfold repoGetByToken
        rw [if_neg Bool.false_ne_true, hget]
      rw [gateGET_lookup_error incF hver hres]
      simp
    | some rec =>
      have hmax := hinv rec hget
      have hlim : gateIsLimitExceeded (mapDbModelToDomain rec) = false := by
        unfold gateIsLimitExceeded
        rw [mapDbModelToDomain_maxDownloads, hmax]
      by_cases hexp : gateIsExpired (mapDbModelToDomain rec) now = true
      · rw [gateGET_expired incF hver hget hexp]
        simp
      · have hexp2 := eq_false_of_ne_true hexp
        cases incF
        · rw [gateGET_authorized hver hget hexp2 hlim]
          simp
        · rw [gateGET_authorized_increment_fails hver hget hexp2 hlim]
          simp

theorem gateGET_preserves_noLimit (secret tokenParam : List Char)
    (tbl : TokenTable) (now : Int) (incF : Bool)
    (hinv : tableNoLimit tokenParam tbl) :
    tableNoLimit tokenParam (gateGET secret tokenParam tbl now false incF).2 := by
  cases hver : verifyDownloadToken secret tokenParam with
  | error e => rw [gateGET_unverified tbl now false incF hver]; exact hinv
  | ok u =>
    cases u
    cases hget : tableGet tbl (getPrimaryKey tokenParam) getSortKey with
    | none =>
      have hres : repoGetByToken tbl tokenParam false = .error .notFound := by
        unfold repoGetByToken
        rw [if_neg Bool.false_ne_true, hget]
      rw [gateGET_lookup_error incF hver hres]
      exact hinv
    | some rec =>
      have hmax := hinv rec hget
      have hlim : gateIsLimitExceeded (mapDbModelToDomain rec) = false := by
        unfold gateIsLimitExceeded
        rw [mapDbModelToDomain_maxDownloads, hmax]
      by_cases hexp : gateIsExpired (mapDbModelToDomain rec) now = true
      · rw [gateGET_expired incF hver hget hexp]
        exact hinv
      · have hexp2 := eq_false_of_ne_true hexp
        cases incF
        · rw [gateGET_authorized hver hget hexp2 hlim]
          intro rec2 hget2
          rw [tableGet_put_self] at hget2
          cases hget2
          exact hmax
        · rw [gateGET_authorized_increment_fails hver hget hexp2 hlim]
          exact hinv

theorem gateRun_no_403_of_noLimit (secret tokenParam : List Char)
    (tbl : TokenTable) (attempts : List (Int × Bool))
    (hinv : tableNoLimit tokenParam tbl) :
    ∀ r ∈ (gateRun secret tokenParam tbl attempts).1, r.status ≠ 403 := by
  induction attempts generalizing tbl with
  | nil => intro r hr; simp [gateRun] at hr
  | cons a rest ih =>
    obtain ⟨now, incF⟩ := a
    intro r hr
    simp only [gateRun, List.mem_cons] at hr
    rcases hr with rfl | hr
    · exact gateGET_no_403_of_noLimit secret tokenParam tbl now incF hinv
    · exact ih _ (gateGET_preserves_noLimit secret tokenParam tbl now incF hinv) r hr

theorem gateIsExpired_increment (rec : DownloadTokenDbModel) (n : Nat)
    (t la : Int) :
    gateIsExpired (mapDbModelToDomain
      { rec with downloadCount := n, lastAccessedAt := some la }) t =
    gateIsExpired (mapDbModelToDomain rec) t := rfl

/-- C2: sequential limit enforcement at the gate.  (1) Whatever sequence of
redemption attempts runs against a stored token with `maxDownloads = m`,
its `downloadCount` never exceeds `m`; (2) an attempt that finds
`downloadCount ≥ maxDownloads` is denied with 403 (`LimitExceeded`) and the
store is left untouched — no increment is attempted; (3) a fresh token with
`maxDownloads = 1` authorizes its first redemption and the second attempt
is denied with 403; (4) a token with no `maxDownloads` is never denied for
the limit, however many attempts run. -/
theorem C2_limit_enforcement (secret tokenParam : List Char)
    (tbl : TokenTable) :
    (∀ (m : Nat) (attempts : List (Int × Bool)),
       tableLimitOk tokenParam m tbl →
       tableLimitOk tokenParam m (gateRun secret tokenParam tbl attempts).2) ∧
    (∀ (now : Int) (incF : Bool) (rec : DownloadTokenDbModel) (m : Nat),
       verifyDownloadToken secret tokenParam = .ok () →
       tableGet tbl (getPrimaryKey tokenParam) getSortKey = some rec →
       gateIsExpired (mapDbModelToDomain rec) now = false →
       rec.maxDownloads = some m → m ≤ rec.downloadCount →
       gateGET secret tokenParam tbl now false incF =
         (⟨403, none, false⟩, tbl)) ∧
    (∀ (t1 t2 : Int) (rec : DownloadTokenDbModel),
       verifyDownloadToken secret tokenParam = .ok () →
       tableGet tbl (getPrimaryKey tokenParam) getSortKey = some rec →
       rec.maxDownloads = some 1 → rec.downloadCount = 0 →
       gateIsExpired (mapDbModelToDomain rec) t1 = false →
       gateIsExpired (mapDbModelToDomain rec) t2 = false →
       (gateRun secret tokenParam tbl [(t1, false), (t2, false)]).1 =
         [⟨200, some rec.fileUrl, false⟩, ⟨403, none, false⟩]) ∧
    (∀ attempts : List (Int × Bool), tableNoLimit tokenParam tbl →
       ∀ r ∈ (gateRun secret tokenParam tbl attempts).1, r.status ≠ 403) := by
  refine ⟨?_, ?_, ?_, ?_⟩
  · intro m attempts hinv
    exact gateRun_preserves_limitOk secret tokenParam tbl attempts m hinv
  · intro now incF rec m hver hget hexp hmax hge
    have hlim : gateIsLimitExceeded (mapDbModelToDomain rec) = true := by
      rw [gateIsLimitExceeded_of_rec rec hmax]
      simpa using hge
    exact gateGET_limit_exceeded incF hver hget hexp hlim
  · intro t1 t2 rec hver hget hmax hcnt hexp1 hexp2
    have hlim1 : gateIsLimitExceeded (mapDbModelToDomain rec) = false := by
      rw [gateIsLimitExceeded_of_rec rec hmax, hcnt]
      simp
    simp only [gateRun]
    rw [gateGET_authorized hver hget hexp1 hlim1]
    have hget2 : tableGet
        (tablePut tbl (getPrimaryKey tokenParam) getSortKey
          { rec with downloadCount := rec.downloadCount + 1,
                     lastAccessedAt := some t1 })
        (getPrimaryKey tokenParam) getSortKey =
        some { rec with downloadCount := rec.downloadCount + 1,
                        lastAccessedAt := some t1 } :=
      tableGet_put_self _ _ _ _
    have hexp2b : gateIsExpired (mapDbModelToDomain
        { rec with downloadCount := rec.downloadCount + 1,
                   lastAccessedAt := some t1 }) t2 = false := by
      rw [gateIsExpired_increment]
      exact hexp2
    have hlim2 : gateIsLimitExceeded (mapDbModelToDomain
        { rec with downloadCount := rec.downloadCount + 1,
                   lastAccessedAt := some t1 }) = true := by
      rw [gateIsLimitExceeded_of_rec _ (by simpa using hmax), hcnt]
      simp
    rw [gateGET_limit_exceeded false hver hget2 hexp2b hlim2]
  · intro attempts hinv
    exact gateRun_no_403_of_noLimit secret tokenParam tbl attempts hinv

theorem cPayload_valid : validTriple cPayload := by decide

theorem cVerify : verifyDownloadToken cSecret cTokenStr = .ok () :=
  verify_generateDownloadToken cSecret cPayload cPayload_valid

/-- C2 witness: the worked token with `maxDownloads = 1` is authorized once
(status 200, serving its file) and denied with 403 on the second attempt. -/
theorem C2_limit_enforcement_witness :
    (gateRun cSecret cTokenStr cTbl [(5, false), (6, false)]).1 =
      [⟨200, some cRec.fileUrl, false⟩, ⟨403, none, false⟩] :=
  (C2_limit_enforcement cSecret cTokenStr cTbl).2.2.1 5 6 cRec
    cVerify (tableGet_put_self _ _ _ _) rfl rfl rfl rfl

/-! ## Claim C3 -/

/-- C3: for every valid triple — non-empty components, `orderId` and
`expiresAt` free of the `:` delimiter, `fileUrl` allowed to contain colons —
verifying a freshly signed token succeeds, and parsing it recovers exactly
the original triple. -/
theorem C3_sign_verify_parse_roundtrip (secret orderId fileUrl expiresAt : List Char)
    (h1 : orderId ≠ []) (h2 : fileUrl ≠ []) (h3 : expiresAt ≠ [])
    (h4 : ':' ∉ orderId) (h5 : ':' ∉ expiresAt) :
    verifyDownloadToken secret
        (generateDownloadToken secret ⟨orderId, fileUrl, expiresAt⟩) =
      .ok () ∧
    parseDownloadToken
        (generateDownloadToken secret ⟨orderId, fileUrl, expiresAt⟩) =
      some ⟨orderId, fileUrl, expiresAt⟩ :=
  ⟨verify_generateDownloadToken secret _ ⟨h1, h2, h3, h4, h5⟩,
   parse_generateDownloadToken secret _ ⟨h1, h2, h3, h4, h5⟩⟩

/-- C3 witness: the round trip at a concrete triple whose `fileUrl`
contains colons. -/
theorem C3_roundtrip_witness :
    verifyDownloadToken cSecret
        (generateDownloadToken cSecret
          ⟨cPayload.orderId, cPayload.fileUrl, cPayload.expiresAt⟩) =
      .ok () ∧
    parseDownloadToken
        (generateDownloadToken cSecret
          ⟨cPayload.orderId, cPayload.fileUrl, cPayload.expiresAt⟩) =
      some ⟨cPayload.orderId, cPayload.fileUrl, cPayload.expiresAt⟩ :=
  C3_sign_verify_parse_roundtrip cSecret cPayload.orderId cPayload.fileUrl
    cPayload.expiresAt (by decide) (by decide) (by decide) (by decide)
    (by decide)

/-- C5 witness: at time 2000 the stored expiry 1000 is in the past and the
request is rejected 410; at time 500 the same expiry is in the future and
the request is not rejected for expiry; with no expiry stored (`cRec`),
no time yields 410. -/
theorem C5_expiry_boundary_witness :
    (gateGET cSecret cTokenStr cTblExp 2000 false false).1.status = 410 ∧
    (gateGET cSecret cTokenStr cTblExp 500 false false).1.status ≠ 410 ∧
    (gateGET cSecret cTokenStr cTbl 123456 false false).1.status ≠ 410 :=
  ⟨(C5_expiry_boundary cSecret cTokenStr cTblExp 2000 false cRecExp cVerify
      (tableGet_put_self _ _ _ _)).1 1000 rfl (by decide),
   (C5_expiry_boundary cSecret cTokenStr cTblExp 500 false cRecExp cVerify
      (tableGet_put_self _ _ _ _)).2.1 1000 rfl (by decide),
   (C5_expiry_boundary cSecret cTokenStr cTbl 123456 false cRec cVerify
      (tableGet_put_self _ _ _ _)).2.2 rfl⟩

/-- C6 witness: with the increment failing, the worked request still
returns 200 serving the file, with the failure captured and the store
untouched. -/
theorem C6_increment_failure_witness :
    gateGET cSecret cTokenStr cTbl 7 false true =
      (⟨200, some cRec.fileUrl, true⟩, cTbl) :=
  C6_increment_failure_still_authorizes cSecret cTokenStr cTbl 7 cRec
    cVerify (tableGet_put_self _ _ _ _) rfl rfl

/-- C7 counterexample: an infrastructure fetch failure during the store
lookup — with the token present in the store and its signature valid — is
answered with 404, not the 500 the claim requires for store failures
unrelated to absence. -/
theorem C7_fetch_failure_counterexample :
    (gateGET cSecret cTokenStr cTbl 0 true false).1.status = 404 ∧
    (gateGET cSecret cTokenStr cTbl 0 true false).1.status ≠ 500 ∧
    tableGet cTbl (getPrimaryKey cTokenStr) getSortKey = some cRec := by
  have hres : repoGetByToken cTbl cTokenStr true = .error .fetch := rfl
  rw [gateGET_lookup_error false cVerify hres]
  exact ⟨rfl, by simp, tableGet_put_self _ _ _ _⟩

/-- C7 witness: the amended statement at the worked token and table. -/
theorem C7_lookup_failure_witness :
    (((gateGET cSecret cTokenStr cTbl 0 true false).1.status = 404 ↔
        (repoGetByToken cTbl cTokenStr true).isOk = false) ∧
      (gateGET cSecret cTokenStr cTbl 0 true false).1.status ≠ 500) :=
  C7_lookup_failure_maps_to_404 cSecret cTokenStr cTbl 0 true false cVerify

/-! ## Claim C4 -/

theorem parseDownloadToken_congr (t1 t2 : List Char)
    (h : (splitOnChar '.' t1).headD [] = (splitOnChar '.' t2).headD []) :
    parseDownloadToken t1 = parseDownloadToken t2 := by
  unfold parseDownloadToken
  rw [h]

/-- C4 amended: tamper detection holds for the signature segment — changing
any one character of the hex signature to a different ASCII character other
than the `.` separator makes `Verify` fail with `InvalidSignature` — but
not universally for the payload segment, where a single-character change
that touches only the unused trailing bits of the final base64 character is
accepted (see the counterexample). -/
theorem C4_signature_tamper_detected (secret : List Char)
    (d : DownloadTokenPayload) (hd : validTriple d) (i : Nat) (c : Char)
    (hi : i < 64) (hascii : c.toNat < 128) (hdot : c ≠ '.')
    (hne : c ≠ (hmacHex secret (payloadString d)).getD i '0') :
    verifyDownloadToken secret
      (base64Encode (utf8Encode (payloadString d)) ++ '.' ::
        (hmacHex secret (payloadString d)).set i c) =
      .error .invalidSignature := by
  have hsiglen : (hmacHex secret (payloadString d)).length = 64 :=
    hmacHex_length _ _
  have hsigascii : ∀ x ∈ hmacHex secret (payloadString d), x.toNat < 128 :=
    fun x hx => hexDigits_ascii x (hmacHex_mem_hexDigits hx)
  have hdotset : '.' ∉ (hmacHex secret (payloadString d)).set i c := by
    intro hmem
    rcases List.mem_or_eq_of_mem_set hmem with h | h
    · exact dot_not_mem_hmacHex _ _ h
    · exact hdot h.symm
  have hsetascii : ∀ x ∈ (hmacHex secret (payloadString d)).set i c,
      x.toNat < 128 := by
    intro x hx
    rcases List.mem_or_eq_of_mem_set hx with h | h
    · exact hsigascii x h
    · subst h; exact hascii
  have henc : base64Encode (utf8Encode (payloadString d)) ≠ [] :=
    base64Encode_ne_nil (utf8Encode_ne_nil (payloadString_ne_nil d))
  have hsetne : (hmacHex secret (payloadString d)).set i c ≠ [] := by
    intro h
    have hl := List.length_set (hmacHex secret (payloadString d)) i c
    rw [h] at hl
    simp only [List.length_nil] at hl
    omega
  have hsplit : splitOnChar '.'
      (base64Encode (utf8Encode (payloadString d)) ++ '.' ::
        (hmacHex secret (payloadString d)).set i c) =
      [base64Encode (utf8Encode (payloadString d)),
       (hmacHex secret (payloadString d)).set i c] := by
    rw [splitOnChar_append_cons (dot_not_mem_base64Encode _),
      splitOnChar_of_not_mem hdotset]
  have hsplit2 : splitOnChar '.' (generateDownloadToken secret d) =
      [base64Encode (utf8Encode (payloadString d)),
       hmacHex secret (payloadString d)] := by
    unfold generateDownloadToken
    rw [splitOnChar_append_cons (dot_not_mem_base64Encode _),
      splitOnChar_of_not_mem (dot_not_mem_hmacHex _ _)]
  have hparse : parseDownloadToken
      (base64Encode (utf8Encode (payloadString d)) ++ '.' ::
        (hmacHex secret (payloadString d)).set i c) = some d := by
    rw [parseDownloadToken_congr _ (generateDownloadToken secret d)
      (by rw [hsplit, hsplit2]; rfl), parse_generateDownloadToken secret d hd]
  have hsigne : (hmacHex secret (payloadString d)).set i c ≠
      hmacHex secret (payloadString d) := by
    intro h
    have hilen : i < ((hmacHex secret (payloadString d)).set i c).length := by
      rw [List.length_set]
      omega
    have h1 : ((hmacHex secret (payloadString d)).set i c).getD i '0' =
        (hmacHex secret (payloadString d)).getD i '0' := by
      rw [h]
    rw [List.getD_eq_getElem _ '0' hilen,
      List.getD_eq_getElem _ '0' (by omega :
        i < (hmacHex secret (payloadString d)).length),
      List.getElem_set_self] at h1
    apply hne
    rw [List.getD_eq_getElem _ '0' (by omega :
      i < (hmacHex secret (payloadString d)).length)]
    exact h1
  have hlast : ([base64Encode (utf8Encode (payloadString d)),
      (hmacHex secret (payloadString d)).set i c] :
        List (List Char)).getLastD [] =
      (hmacHex secret (payloadString d)).set i c := rfl
  unfold verifyDownloadToken
  rw [hsplit]
  simp only [List.length_cons, List.length_nil, List.headD_cons, hlast]
  rw [if_neg (by omega)]
  rw [if_neg (by simp [henc, hsetne])]
  rw [hparse]
  have hexp : payloadString ⟨d.orderId, d.fileUrl, d.expiresAt⟩ =
      payloadString d := rfl
  have hbeq : (((hmacHex secret (payloadString d)).set i c).map Char.toNat ==
      (hmacHex secret (payloadString d)).map Char.toNat) = false := by
    rw [beq_eq_false_iff_ne]
    intro h
    exact hsigne (List.map_injective_iff.mpr
      (fun a b hab => char_toNat_injective hab) h)
  simp only [hexp, utf8Encode_ascii hsetascii, utf8Encode_ascii hsigascii,
    timingSafeEqual]
  rw [if_pos (by simp [List.length_set]), hbeq]

set_option maxRecDepth 1000000 in
/-- C4 counterexample: flipping the character at index 6 of the payload
segment of a validly signed token (the final base64 character before the
padding, `M` to `N`, which changes only the discarded dangling bits) is
accepted by `Verify` — a genuine single-character modification of the
payload segment that is neither rejected as `InvalidSignature` nor as
`InvalidFormat`. -/
theorem C4_payload_tamper_accepted_counterexample :
    (generateDownloadToken cSecret cPayloadB).set 6 'N' ≠
      generateDownloadToken cSecret cPayloadB ∧
    6 < ((splitOnChar '.' (generateDownloadToken cSecret cPayloadB)).headD
      []).length ∧
    verifyDownloadToken cSecret
      ((generateDownloadToken cSecret cPayloadB).set 6 'N') = .ok () := by
  refine ⟨by decide, by decide, by rfl⟩

set_option maxRecDepth 1000000 in
/-- C4 witness: the amended theorem at a concrete token, flipping
signature character 3 to `z`. -/
theorem C4_signature_tamper_witness :
    verifyDownloadToken cSecret
      (base64Encode (utf8Encode (payloadString cPayloadB)) ++ '.' ::
        (hmacHex cSecret (payloadString cPayloadB)).set 3 'z') =
      .error .invalidSignature :=
  C4_signature_tamper_detected cSecret cPayloadB (by decide) 3 'z'
    (by decide) (by decide) (by decide) (by decide)

/-! ## Claim C9 -/

theorem natDigitsAux_mem {c : Char} :
    ∀ {fuel n : Nat}, c ∈ natDigitsAux fuel n → c ∈ hexDigits := by
  have gmem : ∀ i : Nat, hexDigits.getD i '0' ∈ hexDigits := by
    intro i
    unfold List.getD
    cases hv : hexDigits.get? i with
    | none => decide
    | some d => exact List.get?_mem hv
  intro fuel
  induction fuel with
  | zero => intro n h; simp [natDigitsAux] at h
  | succ f ih =>
    intro n h
    unfold natDigitsAux at h
    split at h
    · simp only [List.mem_singleton] at h
      subst h
      exact gmem _
    · simp only [List.mem_append, List.mem_singleton] at h
      rcases h with h | h
      · exact ih h
      · subst h
        exact gmem _

theorem colon_not_mem_natDigits (n : Nat) : ':' ∉ natDigits n := by
  intro h
  exact absurd (natDigitsAux_mem h) (by decide)

theorem natDigits_ne_nil (n : Nat) : natDigits n ≠ [] := by
  unfold natDigits natDigitsAux
  split
  · simp
  · simp

theorem colon_not_mem_expiresAtString (expiry : Option Int) :
    ':' ∉ expiresAtString expiry := by
  cases expiry with
  | none => decide
  | some e =>
    simp only [expiresAtString, isoString]
    split
    · simp only [List.mem_cons, not_or]
      exact ⟨by decide, colon_not_mem_natDigits _⟩
    · exact colon_not_mem_natDigits _

theorem expiresAtString_ne_nil (expiry : Option Int) :
    expiresAtString expiry ≠ [] := by
  cases expiry with
  | none => simp [expiresAtString]
  | some e =>
    simp only [expiresAtString, isoString]
    split
    · simp
    · exact natDigits_ne_nil _

theorem generateDownloadToken_inj {secret : List Char}
    {d1 d2 : DownloadTokenPayload} (h1 : validTriple d1)
    (h2 : validTriple d2) (hne : d1 ≠ d2) :
    generateDownloadToken secret d1 ≠ generateDownloadToken secret d2 := by
  intro he
  have p1 := parse_generateDownloadToken secret d1 h1
  have p2 := parse_generateDownloadToken secret d2 h2
  rw [he, p2] at p1
  exact hne (Option.some.inj p1).symm

theorem urlCanParse_ne_nil {s : List Char} (h : urlCanParse s = true) :
    s ≠ [] := by
  intro hn
  subst hn
  simp [urlCanParse] at h

theorem downloadTokenSchemaCheck_issuerTokenData (secret : List Char)
    (order : OrderInfo) (line : LineInfo) (expiry : Option Int)
    (maxDl : Option Nat) (totalFiles : Nat) (now : Int) (idx : Nat)
    (fm : FileMetadata) (hurl : urlCanParse fm.url = true)
    (hmail : ∀ e, jsOrStr order.userEmail order.userEmailFallback = some e →
      emailOk e = true)
    (hmax : ∀ n, maxDl = some n → 0 < n) (htf : 0 < totalFiles) :
    downloadTokenSchemaCheck
      (issuerTokenData secret order line expiry maxDl totalFiles now idx fm) =
      true := by
  simp only [downloadTokenSchemaCheck, issuerTokenData, hurl,
    Bool.true_and, Bool.and_eq_true]
  refine ⟨⟨⟨?_, ?_⟩, by simp⟩, by simp [htf]⟩
  · cases hm : jsOrStr order.userEmail order.userEmailFallback with
    | none => rfl
    | some e => exact hmail e hm
  · cases hd : maxDl with
    | none => rfl
    | some n => simpa using hmax n hd

theorem issuerMkToken_ok (secret : List Char) (order : OrderInfo)
    (line : LineInfo) (expiry : Option Int) (maxDl : Option Nat)
    (totalFiles : Nat) (now : Int) (idx : Nat) (fm : FileMetadata)
    (h : downloadTokenSchemaCheck
      (issuerTokenData secret order line expiry maxDl totalFiles now idx fm) =
      true) :
    issuerMkToken secret order line expiry maxDl totalFiles now idx fm =
      .ok (issuerTokenData secret order line expiry maxDl totalFiles now idx
        fm) := by
  have hbase : ({ issuerTokenData secret order line expiry maxDl totalFiles
        now idx fm with
        downloadCount := 0
        createdAt := now
        lastAccessedAt := none } : DownloadToken) =
      issuerTokenData secret order line expiry maxDl totalFiles now idx fm :=
    rfl
  simp only [issuerMkToken, createDownloadToken, hbase, h, if_true]

/-- C9: for a digital line item with two resolvable files whose data
passes the schema validation (well-formed `https` file URLs, a well-formed
customer email when one is present, a positive download limit when one is
set), the issuer's token-creation loop creates two tokens sharing one
`fileGroup` (derived from the product), with `fileIndex` 1 and 2,
`totalFiles = 2` and the file's name on both, and saves each of them to
the store. -/
theorem C9_multifile_grouping (secret : List Char) (order : OrderInfo)
    (line : LineInfo) (expiry : Option Int) (maxDl : Option Nat) (now : Int)
    (tbl : TokenTable) (f1 f2 : FileMetadata)
    (hoid1 : order.id ≠ []) (hoid2 : ':' ∉ order.id)
    (hurl1 : urlCanParse f1.url = true) (hurl2 : urlCanParse f2.url = true)
    (hmail : ∀ e, jsOrStr order.userEmail order.userEmailFallback = some e →
      emailOk e = true)
    (hmax : ∀ n, maxDl = some n → 0 < n)
    (hne : f1.url ≠ f2.url) :
    ∃ t1 t2 : DownloadToken,
      (issueLineTokens secret order line [f1, f2] expiry maxDl now
        (fun _ => false) tbl).1 = .ok [t1, t2] ∧
      t1.fileGroup = some (fileGroupOf line) ∧
      t2.fileGroup = some (fileGroupOf line) ∧
      t1.fileIndex = some 1 ∧ t2.fileIndex = some 2 ∧
      t1.totalFiles = some 2 ∧ t2.totalFiles = some 2 ∧
      t1.fileName = some f1.name ∧ t2.fileName = some f2.name ∧
      tableGet (issueLineTokens secret order line [f1, f2] expiry maxDl now
          (fun _ => false) tbl).2 (getPrimaryKey t1.token) getSortKey =
        some (mapDomainToDbModel t1) ∧
      tableGet (issueLineTokens secret order line [f1, f2] expiry maxDl now
          (fun _ => false) tbl).2 (getPrimaryKey t2.token) getSortKey =
        some (mapDomainToDbModel t2) := by
  have hmk1 := issuerMkToken_ok secret order line expiry maxDl 2 now 0 f1
    (downloadTokenSchemaCheck_issuerTokenData secret order line expiry maxDl
      2 now 0 f1 hurl1 hmail hmax (by decide))
  have hmk2 := issuerMkToken_ok secret order line expiry maxDl 2 now 1 f2
    (downloadTokenSchemaCheck_issuerTokenData secret order line expiry maxDl
      2 now 1 f2 hurl2 hmail hmax (by decide))
  have hloop : issueLineTokens secret order line [f1, f2] expiry maxDl now
      (fun _ => false) tbl =
      (.ok [issuerTokenData secret order line expiry maxDl 2 now 0 f1,
            issuerTokenData secret order line expiry maxDl 2 now 1 f2],
       tablePut
         (tablePut tbl
           (getPrimaryKey
             (issuerTokenData secret order line expiry maxDl 2 now 0
               f1).token)
           getSortKey
           (mapDomainToDbModel
             (issuerTokenData secret order line expiry maxDl 2 now 0 f1)))
         (getPrimaryKey
           (issuerTokenData secret order line expiry maxDl 2 now 1 f2).token)
         getSortKey
         (mapDomainToDbModel
           (issuerTokenData secret order line expiry maxDl 2 now 1 f2))) := by
    simp only [issueLineTokens,
      show ([f1, f2] : List FileMetadata).length = 2 from rfl]
    simp only [issuerLoop, show (0 : Nat) + 1 = 1 from rfl, hmk1, hmk2,
      repoSave, Bool.false_eq_true, if_false]
  refine ⟨issuerTokenData secret order line expiry maxDl 2 now 0 f1,
    issuerTokenData secret order line expiry maxDl 2 now 1 f2,
    ?_, rfl, rfl, rfl, rfl, rfl, rfl, rfl, rfl, ?_, ?_⟩
  · rw [hloop]
  · have hv1 : validTriple ⟨order.id, f1.url, expiresAtString expiry⟩ :=
      ⟨hoid1, urlCanParse_ne_nil hurl1, expiresAtString_ne_nil expiry, hoid2,
       colon_not_mem_expiresAtString expiry⟩
    have hv2 : validTriple ⟨order.id, f2.url, expiresAtString expiry⟩ :=
      ⟨hoid1, urlCanParse_ne_nil hurl2, expiresAtString_ne_nil expiry, hoid2,
       colon_not_mem_expiresAtString expiry⟩
    have htokne :
        (issuerTokenData secret order line expiry maxDl 2 now 0 f1).token ≠
        (issuerTokenData secret order line expiry maxDl 2 now 1 f2).token :=
      generateDownloadToken_inj hv1 hv2
        (fun hd => hne (congrArg DownloadTokenPayload.fileUrl hd))
    have hkeyne :
        ((getPrimaryKey
            (issuerTokenData secret order line expiry maxDl 2 now 1 f2).token,
          getSortKey) :
            List Char × List Char) ≠
        (getPrimaryKey
            (issuerTokenData secret order line expiry maxDl 2 now 0 f1).token,
          getSortKey) := by
      intro hp
      have hfst := congrArg Prod.fst hp
      simp only at hfst
      exact htokne (getPrimaryKey_injective hfst).symm
    rw [hloop]
    show tableGet (tablePut (tablePut tbl _ _ _) _ _ _) _ _ = _
    rw [tableGet_put_ne _ _ hkeyne, tableGet_put_self]
  · rw [hloop]
    show tableGet (tablePut (tablePut tbl _ _ _) _ _ _) _ _ = _
    rw [tableGet_put_self]

/-- C9 witness: the multi-file grouping at a concrete two-file line item
with ordinary `https` file URLs and download limit 3. -/
theorem C9_multifile_grouping_witness :
    ∃ t1 t2 : DownloadToken,
      (issueLineTokens cSecret cOrder cLine [cFile1, cFile2] none (some 3) 0
        (fun _ => false) []).1 = .ok [t1, t2] ∧
      t1.fileGroup = some (fileGroupOf cLine) ∧
      t2.fileGroup = some (fileGroupOf cLine) ∧
      t1.fileIndex = some 1 ∧ t2.fileIndex = some 2 ∧
      t1.totalFiles = some 2 ∧ t2.totalFiles = some 2 ∧
      t1.fileName = some cFile1.name ∧ t2.fileName = some cFile2.name ∧
      tableGet (issueLineTokens cSecret cOrder cLine [cFile1, cFile2] none
          (some 3) 0 (fun _ => false) []).2 (getPrimaryKey t1.token)
        getSortKey = some (mapDomainToDbModel t1) ∧
      tableGet (issueLineTokens cSecret cOrder cLine [cFile1, cFile2] none
          (some 3) 0 (fun _ => false) []).2 (getPrimaryKey t2.token)
        getSortKey = some (mapDomainToDbModel t2) :=
  C9_multifile_grouping cSecret cOrder cLine none (some 3) 0 [] cFile1 cFile2
    (by decide) (by decide) (by decide) (by decide)
    (by
      intro e h
      simp [jsOrStr, cOrder] at h)
    (by
      intro n h
      injection h with h2
      omega)
    (by decide)

set_option maxRecDepth 1000000 in
/-- C1: the store's `incrementDownloadCount` is not a conditional
increment.  For a record already at its limit (`downloadCount =
maxDownloads = 1`) the operation still succeeds and raises the stored count
to 2 — there is no "limit would be exceeded" outcome anywhere in its
result type — and two concurrent redemption attempts for a fresh
`maxDownloads = 1` token, interleaved so that both reads precede both
increments, are both answered 200 (`Authorized`), leaving
`downloadCount = 2`, instead of the claim's one `Authorized` and one
`LimitExceeded`. -/
theorem C1_increment_unconditional_race :
    (repoIncrementDownloadCount cTblAtLimit cTokenStr 9 false).1 =
      .ok (mapDbModelToDomain
        { cRecAtLimit with downloadCount := 2, lastAccessedAt := some 9 }) ∧
    tableGet (repoIncrementDownloadCount cTblAtLimit cTokenStr 9 false).2
        (getPrimaryKey cTokenStr) getSortKey =
      some { cRecAtLimit with downloadCount := 2, lastAccessedAt := some 9 } ∧
    (gateGETTwoConcurrent cSecret cTokenStr cTbl 5).1 =
      (⟨200, some cRec.fileUrl, false⟩, ⟨200, some cRec.fileUrl, false⟩) ∧
    (tableGet (gateGETTwoConcurrent cSecret cTokenStr cTbl 5).2
        (getPrimaryKey cTokenStr) getSortKey).map
      (fun r => r.downloadCount) = some 2 := by
  have hget : tableGet cTblAtLimit (getPrimaryKey cTokenStr) getSortKey =
      some cRecAtLimit := tableGet_put_self _ _ _ _
  refine ⟨?_, ?_, ?_, ?_⟩
  · rw [repoIncrement_of_tableGet 9 hget]
    rfl
  · rw [repoIncrement_of_tableGet 9 hget, tableGet_put_self]
    rfl
  · rfl
  · rfl

end DigitalDownloads

